import Mathlib

/-!
# server.ListenAndServe and server.wrapHandler

A shallow embedding of `src/server/server.go`.

* Go values the function only passes around (certificates, keys, listeners,
  storage backends, errors) are opaque tokens.
* A nil pointer / nil interface is `none` (for `http.Handler`: `Handler.nil`).
* Closures are defunctionalised: every `func` literal of the source is a
  constructor holding the variables it captures, and its body is given by an
  interpreter (`ServeHTTP` for the handler closure, `Goroutine.body` for the four
  goroutines).
* The collaborators of other packages (`factory.LoadOrGenCA`,
  `dynamiclistener.NewTCPListener`, `dynamiclistener.NewListener`,
  `memory.New`) are the fields of `Env`; every call made to them, and every
  `go` statement, is recorded in program order in the trace of the call.
-/

namespace Server

/-! ## Values -/

/-- A non-nil Go `error` value. -/
structure Error where
  msg : String
  deriving DecidableEq, Repr

/-- An `x509.Certificate` (the pointee of a non-nil `*x509.Certificate`). -/
structure Certificate where
  id : Nat
  deriving DecidableEq, Repr

/-- A non-nil `crypto.Signer`. -/
structure Signer where
  id : Nat
  deriving DecidableEq, Repr

/-- A non-nil `dynamiclistener.TLSStorage`. -/
structure TLSStorage where
  id : Nat
  deriving DecidableEq, Repr

/-- The `net.Listener` returned by `dynamiclistener.NewTCPListener`. -/
structure TCPListener where
  id : Nat
  deriving DecidableEq, Repr

/-- The `net.Listener` returned by `dynamiclistener.NewListener`. -/
structure DynListener where
  id : Nat
  deriving DecidableEq, Repr

/-- A `context.Context`: the value of `context.Background()`, or a context
made by the caller. -/
inductive Context where
  | background
  | caller (id : Nat)
  deriving DecidableEq, Repr

/-- An `http.Handler` value.  `wrapFunc handler next` is the closure built at
lines 104-107, with its two captured variables; `redirect next` is the value
`dynamiclistener.HTTPRedirect(next)`; `foreign` is any handler built outside
this package (the caller's, or the one returned by `NewListener`). -/
inductive Handler where
  | nil
  | foreign (id : Nat)
  | wrapFunc (handler next : Handler)
  | redirect (next : Handler)
  deriving DecidableEq, Repr

/-- The struct of lines 16-20; a nil field is `none`. -/
structure ListenOpts where
  CA : Option Certificate := none
  CAKey : Option Signer := none
  Storage : Option TLSStorage := none
  deriving DecidableEq, Repr

/-- The two fields of `http.Server` the source sets; the zero value of `Addr`
is the empty string. -/
structure HTTPServer where
  Addr : String := ""
  Handler : Handler
  deriving DecidableEq, Repr

/-! ## Goroutines -/

/-- One constructor per `go func() { ... }()` of the source, with the
variables the closure captures. -/
inductive Goroutine where
  /-- Lines 69-75. -/
  | httpsServe (httpsPort : Int) (tlsServer : HTTPServer) (dynListener : DynListener)
  /-- Lines 76-79. -/
  | httpsShutdown (ctx : Context) (tlsServer : HTTPServer)
  /-- Lines 87-93. -/
  | httpServe (httpPort : Int) (httpServer : HTTPServer)
  /-- Lines 94-97. -/
  | httpShutdown (ctx : Context) (httpServer : HTTPServer)
  deriving DecidableEq, Repr

/-! ## Effects of one call -/

/-- What a call can do to the outside world.  `ListenAndServe` emits the
first six; `closeListener`, `storageGet` and `storageUpdate` (the method of
`net.Listener` and the two methods of `dynamiclistener.TLSStorage`) are there
so that their absence from a trace can be stated. -/
inductive Effect where
  | loadOrGenCA
  | newTCPListener (host : String) (port : Int)
  | memoryNew
  | newListener (l : TCPListener) (storage : TLSStorage)
      (caCert : Option Certificate) (caKey : Option Signer)
  | httpRedirect (next : Handler)
  | go (t : Goroutine)
  | closeListener (l : TCPListener)
  | storageGet (s : TLSStorage)
  | storageUpdate (s : TLSStorage)
  deriving DecidableEq, Repr

/-- The effects that come from a statement of `ListenAndServe`. -/
def Effect.inSource : Effect → Bool
  | Effect.closeListener _ => false
  | Effect.storageGet _ => false
  | Effect.storageUpdate _ => false
  | _ => true

/-- The collaborators, as the results they give.  A Go result `(v, err)` with
`err != nil` is `.error err`; with `err == nil` it is `.ok v`. -/
structure Env where
  /-- The method `factory.LoadOrGenCA()`; the returned pointers may be nil. -/
  LoadOrGenCA : Except Error (Option Certificate × Option Signer)
  /-- The method `dynamiclistener.NewTCPListener(ip, port)`. -/
  NewTCPListener : String → Int → Except Error TCPListener
  /-- The method `memory.New()`. -/
  memoryNew : TLSStorage
  /-- The method `dynamiclistener.NewListener(l, storage, caCert, caKey, Config{})`. -/
  NewListener : TCPListener → TLSStorage → Option Certificate → Option Signer →
    Except Error (DynListener × Handler)

/-- The returned `error` (`none` is nil) and the trace of the call. -/
structure Result where
  err : Option Error
  trace : List Effect
  deriving DecidableEq, Repr

/-! ## The two functions -/

/-- Lines 103-108. -/
def wrapHandler (handler next : Handler) : Handler :=
  Handler.wrapFunc handler next

/-- The call `dynamiclistener.HTTPRedirect(next)`. -/
def HTTPRedirect (next : Handler) : Handler :=
  Handler.redirect next

/-- Lines 82-100: the HTTP branch and the final `return nil`, entered with
the current value of `targetHandler` and the trace so far. -/
def httpBranch (ctx : Context) (httpPort : Int) (targetHandler : Handler)
    (trace : List Effect) : Result :=
  if httpPort > 0 then
    let httpServer : HTTPServer :=
      { Addr := "0.0.0.0:" ++ toString httpPort, Handler := targetHandler }
    { err := none
      trace := trace ++ [Effect.go (Goroutine.httpServe httpPort httpServer),
                         Effect.go (Goroutine.httpShutdown ctx httpServer)] }
  else
    { err := none, trace := trace }

/-- Lines 39-46: the CA pair handed on, or the error of
`factory.LoadOrGenCA`, with the calls made. -/
def resolveCA (env : Env) (opts : ListenOpts) :
    Except Error (Option Certificate × Option Signer) × List Effect :=
  match opts.CA, opts.CAKey with
  | some c, some k => (Except.ok (some c, some k), [])
  | _, _ => (env.LoadOrGenCA, [Effect.loadOrGenCA])

/-- Lines 53-56: the value of `storage`, with the calls made. -/
def resolveStorage (env : Env) (opts : ListenOpts) : TLSStorage × List Effect :=
  match opts.Storage with
  | some s => (s, [])
  | none => (env.memoryNew, [Effect.memoryNew])

/-- Lines 22-101. -/
def ListenAndServe (env : Env) (ctx : Context) (httpsPort httpPort : Int)
    (handler : Handler) (opts : Option ListenOpts) : Result :=
  let targetHandler := handler
  let opts : ListenOpts := match opts with
    | none => {}
    | some o => o
  if httpsPort > 0 then
    match resolveCA env opts with
    | (Except.error err, t1) => { err := some err, trace := t1 }
    | (Except.ok (caCert, caKey), t1) =>
      let t2 := t1 ++ [Effect.newTCPListener "0.0.0.0" httpsPort]
      match env.NewTCPListener "0.0.0.0" httpsPort with
      | Except.error err => { err := some err, trace := t2 }
      | Except.ok tlsTCPListener =>
        let storage := (resolveStorage env opts).1
        let t3 := t2 ++ (resolveStorage env opts).2 ++
          [Effect.newListener tlsTCPListener storage caCert caKey]
        match env.NewListener tlsTCPListener storage caCert caKey with
        | Except.error err => { err := some err, trace := t3 }
        | Except.ok (dynListener, dynHandler) =>
          let targetHandler := wrapHandler dynHandler handler
          let tlsServer : HTTPServer := { Handler := targetHandler }
          let targetHandler := HTTPRedirect targetHandler
          httpBranch ctx httpPort targetHandler
            (t3 ++ [Effect.httpRedirect tlsServer.Handler,
                    Effect.go (Goroutine.httpsServe httpsPort tlsServer dynListener),
                    Effect.go (Goroutine.httpsShutdown ctx tlsServer)])
  else
    httpBranch ctx httpPort targetHandler []

/-- The goroutines started by a call, in the order of their `go` statements. -/
def scheduled (r : Result) : List Goroutine :=
  r.trace.filterMap fun e => match e with
    | Effect.go t => some t
    | _ => none

/-- The arguments of every call of `dynamiclistener.NewListener`, in order. -/
def newListenerCalls (t : List Effect) :
    List (TCPListener × TLSStorage × Option Certificate × Option Signer) :=
  t.filterMap fun e => match e with
    | Effect.newListener l s c k => some (l, s, c, k)
    | _ => none

/-- Both `opts.CA != nil` and `opts.CAKey != nil` (line 39), a nil `opts`
standing for the empty struct (lines 28-30). -/
def caSupplied (opts : Option ListenOpts) : Bool :=
  match opts with
  | some o => o.CA.isSome && o.CAKey.isSome
  | none => false

/-- The options after lines 28-30. -/
def optsOrEmpty (opts : Option ListenOpts) : ListenOpts :=
  match opts with
  | none => {}
  | some o => o

/-! ## Serving a request -/

/-- An `*http.Request`. -/
structure Request where
  id : Nat
  deriving DecidableEq, Repr

/-- The state of an `http.ResponseWriter`: what has been written to it so far. -/
structure ResponseWriter where
  written : List Nat
  deriving DecidableEq, Repr

/-- One method call `handler.ServeHTTP(rw, req)`: the receiver, the request,
and the state of the response writer when the call is made. -/
structure Invocation where
  handler : Handler
  req : Request
  rw : ResponseWriter
  deriving DecidableEq, Repr

/-- The response writer of a request being served, with the `ServeHTTP` calls
made on its behalf so far, oldest first. -/
structure Conn where
  rw : ResponseWriter
  calls : List Invocation
  deriving DecidableEq, Repr

/-- What the handlers of other packages do with the response writer and the
request; `none` is a panic. -/
structure Behaviour where
  foreign : Nat → ResponseWriter → Request → Option ResponseWriter
  redirect : Handler → ResponseWriter → Request → Option ResponseWriter

/-- The call `h.ServeHTTP(rw, req)`.  A method call on the nil interface
panics; the closure of `wrapHandler` runs lines 105 and 106, where a panic of
line 105 leaves line 106 unreached. -/
def ServeHTTP (b : Behaviour) : Handler → Conn → Request → Option Conn
  | Handler.nil, _, _ => none
  | Handler.foreign id, conn, req =>
    (b.foreign id conn.rw req).map fun rw =>
      { rw := rw, calls := conn.calls ++ [⟨Handler.foreign id, req, conn.rw⟩] }
  | Handler.redirect next, conn, req =>
    (b.redirect next conn.rw req).map fun rw =>
      { rw := rw, calls := conn.calls ++ [⟨Handler.redirect next, req, conn.rw⟩] }
  | Handler.wrapFunc handler next, conn, req =>
    let entered : Conn :=
      { conn with calls := conn.calls ++ [⟨Handler.wrapFunc handler next, req, conn.rw⟩] }
    match ServeHTTP b handler entered req with
    | none => none
    | some conn1 => ServeHTTP b next conn1 req

/-- A handler as a transformer of the state of the response writer. -/
def serve (b : Behaviour) (h : Handler) (rw : ResponseWriter) (req : Request) :
    Option ResponseWriter :=
  (ServeHTTP b h { rw := rw, calls := [] } req).map Conn.rw

/-- Sample handlers: handler `n` appends `n` to the response, except handler 0, which panics. -/
def appendId : Behaviour where
  foreign := fun id rw _ => if id = 0 then none else some ⟨rw.written ++ [id]⟩
  redirect := fun _ rw _ => some ⟨rw.written ++ [301]⟩

/-! ## Running the goroutines -/

/-- The value `http.ErrServerClosed`. -/
def ErrServerClosed : Error := ⟨"http: Server closed"⟩

/-- The statements of the goroutine bodies. -/
inductive Instr where
  /-- The call `logrus.Infof(...)`, with the formatted message. -/
  | infof (msg : String)
  /-- Lines 71-74: `tlsServer.Serve(dynListener)`, a blocking call, and the check of its error. -/
  | serve (srv : HTTPServer) (l : DynListener)
  /-- Lines 89-92: `httpServer.ListenAndServe()`, a blocking call, and the check of its error. -/
  | listenAndServe (srv : HTTPServer)
  /-- The receive `<-ctx.Done()`. -/
  | recvDone (ctx : Context)
  /-- The call `srv.Shutdown(ctx)`. -/
  | shutdown (srv : HTTPServer) (ctx : Context)
  deriving DecidableEq, Repr

/-- The body of each `go func() { ... }()`. -/
def Goroutine.body : Goroutine → List Instr
  | Goroutine.httpsServe httpsPort tlsServer dynListener =>
    [Instr.infof ("Listening on 0.0.0.0:" ++ toString httpsPort),
     Instr.serve tlsServer dynListener]
  | Goroutine.httpsShutdown ctx tlsServer =>
    [Instr.recvDone ctx, Instr.shutdown tlsServer Context.background]
  | Goroutine.httpServe httpPort httpServer =>
    [Instr.infof ("Listening on 0.0.0.0:" ++ toString httpPort),
     Instr.listenAndServe httpServer]
  | Goroutine.httpShutdown ctx httpServer =>
    [Instr.recvDone ctx, Instr.shutdown httpServer Context.background]

/-- What happens while the goroutines run, oldest first; `i` is the index of
the goroutine that acts. -/
inductive Event where
  /-- The context `Context.caller id` is cancelled: its `Done` channel is closed. -/
  | cancelled (id : Nat)
  | logged (i : Nat) (msg : String)
  /-- The blocking serve call of goroutine `i` returned `err`. -/
  | served (i : Nat) (srv : HTTPServer) (err : Option Error)
  /-- The call `logrus.Fatalf`: the process exits. -/
  | fatal (i : Nat)
  /-- Goroutine `i` received from `ctx.Done()`. -/
  | received (i : Nat) (ctx : Context)
  /-- Goroutine `i` called `srv.Shutdown(ctx)`. -/
  | shutdown (i : Nat) (srv : HTTPServer) (ctx : Context)
  deriving DecidableEq, Repr

/-- One move of the scheduler or of the environment. -/
inductive Action where
  /-- The owner of `Context.caller id` cancels it. -/
  | cancel (id : Nat)
  /-- Goroutine `i` executes its next statement, if that is not a blocking serve call. -/
  | run (i : Nat)
  /-- The blocking serve call goroutine `i` is in returns `err` (any value, at any time). -/
  | serveReturns (i : Nat) (err : Option Error)
  deriving DecidableEq, Repr

/-- The goroutines of the process, the index of the next statement of each,
the events so far, and whether `logrus.Fatalf` has ended the process. -/
structure Sys where
  gs : List Goroutine
  pcs : List Nat
  events : List Event
  exited : Bool
  deriving DecidableEq, Repr

/-- The goroutines `gs`, none started yet, in a process where the contexts
`Context.caller id`, `id` in `fired`, are already cancelled. -/
def Sys.start (gs : List Goroutine) (fired : List Nat) : Sys :=
  { gs := gs, pcs := gs.map (fun _ => 0), events := fired.map Event.cancelled, exited := false }

/-- Whether the channel `ctx.Done()` is closed.  The context of
`context.Background()` is never cancelled. -/
def Sys.done (s : Sys) : Context → Bool
  | Context.background => false
  | Context.caller id => decide (Event.cancelled id ∈ s.events)

/-- The next statement of goroutine `i`. -/
def Sys.instr (s : Sys) (i : Nat) : Option Instr :=
  match s.gs[i]?, s.pcs[i]? with
  | some g, some pc => g.body[pc]?
  | _, _ => none

/-- Goroutine `i` has executed its statement, with the events `evs`. -/
def Sys.advance (s : Sys) (i : Nat) (evs : List Event) : Sys :=
  { s with pcs := s.pcs.set i (s.pcs.getD i 0 + 1), events := s.events ++ evs }

/-- The return of a blocking serve call with `err`: lines 72-74 and 90-92. -/
def Sys.serveReturn (s : Sys) (i : Nat) (srv : HTTPServer) (err : Option Error) : Sys :=
  if err ≠ some ErrServerClosed ∧ err ≠ none then
    { s with events := s.events ++ [Event.served i srv err, Event.fatal i], exited := true }
  else
    s.advance i [Event.served i srv err]

/-- One step; `none` when the action is not enabled: the process has exited,
the goroutine has finished or is not at such a statement, or it waits on a
`Done` channel that is not closed. -/
def step (s : Sys) (a : Action) : Option Sys :=
  if s.exited then none
  else match a with
    | Action.cancel id => some { s with events := s.events ++ [Event.cancelled id] }
    | Action.run i =>
      match s.instr i with
      | some (Instr.infof msg) => some (s.advance i [Event.logged i msg])
      | some (Instr.recvDone ctx) =>
        if s.done ctx then some (s.advance i [Event.received i ctx]) else none
      | some (Instr.shutdown srv ctx) => some (s.advance i [Event.shutdown i srv ctx])
      | _ => none
    | Action.serveReturns i err =>
      match s.instr i with
      | some (Instr.serve srv _) => some (s.serveReturn i srv err)
      | some (Instr.listenAndServe srv) => some (s.serveReturn i srv err)
      | _ => none

/-- A run: the actions taken one after the other. -/
def exec (s : Sys) : List Action → Option Sys
  | [] => some s
  | a :: rest => (step s a).bind fun s1 => exec s1 rest

/-- What holds of the state in every run: a goroutine that is past its
receive from a `Done` channel has logged the receive; a receive from a `Done`
channel comes after the cancellation of that context; a call of `Shutdown`
is the second statement of a two-statement body whose first statement, a
receive, the same goroutine has executed before. -/
structure Sys.Inv (s : Sys) : Prop where
  past_recv : ∀ (i : Nat) (g : Goroutine) (pc : Nat) (c : Context),
    s.gs[i]? = some g → s.pcs[i]? = some pc → 1 ≤ pc →
    g.body[0]? = some (Instr.recvDone c) → Event.received i c ∈ s.events
  recv_after_cancel : ∀ (before : List Event) (i : Nat) (c : Context) (after : List Event),
    s.events = before ++ Event.received i c :: after →
    ∃ id, c = Context.caller id ∧ Event.cancelled id ∈ before
  shutdown_after_recv : ∀ (before : List Event) (i : Nat) (srv : HTTPServer) (c : Context)
    (after : List Event),
    s.events = before ++ Event.shutdown i srv c :: after →
    ∃ g ctx1, s.gs[i]? = some g ∧ g.body = [Instr.recvDone ctx1, Instr.shutdown srv c] ∧
      Event.received i ctx1 ∈ before

/-! ## Sample collaborators -/

/-- Every collaborator succeeds. -/
def envOK : Env where
  LoadOrGenCA := Except.ok (some ⟨1⟩, some ⟨2⟩)
  NewTCPListener := fun _ port => Except.ok ⟨port.toNat⟩
  memoryNew := ⟨0⟩
  NewListener := fun l _ _ _ => Except.ok (⟨l.id⟩, Handler.foreign 100)

/-- Loading or generating the CA fails. -/
def envCAFail : Env :=
  { envOK with LoadOrGenCA := Except.error ⟨"cannot write CA"⟩ }

/-- The TCP bind fails. -/
def envBindFail : Env :=
  { envOK with NewTCPListener := fun _ _ => Except.error ⟨"address already in use"⟩ }

/-- The construction of the dynamic listener fails. -/
def envNewListenerFail : Env :=
  { envOK with NewListener := fun _ _ _ _ => Except.error ⟨"bad CA"⟩ }

end Server

namespace Server

/-! ## The returned error -/

theorem httpBranch_err (ctx : Context) (httpPort : Int) (h : Handler) (t : List Effect) :
    (httpBranch ctx httpPort h t).err = none := by
  unfold httpBranch
  split <;> rfl

theorem resolveCA_of_supplied (env : Env) (opts : Option ListenOpts)
    (h : caSupplied opts = true) :
    ∃ c k, (optsOrEmpty opts).CA = some c ∧ (optsOrEmpty opts).CAKey = some k ∧
      resolveCA env (optsOrEmpty opts) = (Except.ok (some c, some k), []) := by
  rcases opts with _ | ⟨⟨ca, key, st⟩⟩
  · simp [caSupplied] at h
  · rcases ca with _ | c <;> rcases key with _ | k <;> simp [caSupplied] at h
    exact ⟨c, k, rfl, rfl, rfl⟩

theorem resolveCA_of_not_supplied (env : Env) (opts : Option ListenOpts)
    (h : caSupplied opts = false) :
    resolveCA env (optsOrEmpty opts) = (env.LoadOrGenCA, [Effect.loadOrGenCA]) := by
  rcases opts with _ | ⟨⟨ca, key, st⟩⟩
  · rfl
  · rcases ca with _ | c <;> rcases key with _ | k <;> simp [caSupplied] at h <;> rfl

/-- The call when `httpsPort <= 0`. -/
theorem ListenAndServe_of_nonpos (env : Env) (ctx : Context) (httpsPort httpPort : Int)
    (handler : Handler) (opts : Option ListenOpts) (hp : ¬ httpsPort > 0) :
    ListenAndServe env ctx httpsPort httpPort handler opts =
      httpBranch ctx httpPort handler [] := by
  simp [ListenAndServe, hp]

/-- The call when CA resolution fails. -/
theorem ListenAndServe_of_ca_error (env : Env) (ctx : Context) (httpsPort httpPort : Int)
    (handler : Handler) (opts : Option ListenOpts) (hp : httpsPort > 0)
    (e : Error) (t1 : List Effect)
    (hca : resolveCA env (optsOrEmpty opts) = (Except.error e, t1)) :
    ListenAndServe env ctx httpsPort httpPort handler opts = { err := some e, trace := t1 } := by
  unfold optsOrEmpty at hca
  simp [ListenAndServe, hp, hca]

/-- The call when the TCP bind fails. -/
theorem ListenAndServe_of_bind_error (env : Env) (ctx : Context) (httpsPort httpPort : Int)
    (handler : Handler) (opts : Option ListenOpts) (hp : httpsPort > 0)
    (c : Option Certificate) (k : Option Signer) (t1 : List Effect)
    (hca : resolveCA env (optsOrEmpty opts) = (Except.ok (c, k), t1))
    (e : Error) (hb : env.NewTCPListener "0.0.0.0" httpsPort = Except.error e) :
    ListenAndServe env ctx httpsPort httpPort handler opts =
      { err := some e, trace := t1 ++ [Effect.newTCPListener "0.0.0.0" httpsPort] } := by
  unfold optsOrEmpty at hca
  simp [ListenAndServe, hp, hca, hb]

/-- The call when the construction of the dynamic listener fails. -/
theorem ListenAndServe_of_newListener_error (env : Env) (ctx : Context)
    (httpsPort httpPort : Int) (handler : Handler) (opts : Option ListenOpts)
    (hp : httpsPort > 0)
    (c : Option Certificate) (k : Option Signer) (t1 : List Effect)
    (hca : resolveCA env (optsOrEmpty opts) = (Except.ok (c, k), t1))
    (l : TCPListener) (hb : env.NewTCPListener "0.0.0.0" httpsPort = Except.ok l)
    (e : Error)
    (hn : env.NewListener l (resolveStorage env (optsOrEmpty opts)).1 c k = Except.error e) :
    ListenAndServe env ctx httpsPort httpPort handler opts =
      { err := some e
        trace := t1 ++ [Effect.newTCPListener "0.0.0.0" httpsPort] ++
          (resolveStorage env (optsOrEmpty opts)).2 ++
          [Effect.newListener l (resolveStorage env (optsOrEmpty opts)).1 c k] } := by
  unfold optsOrEmpty at hca hn ⊢
  simp [ListenAndServe, hp, hca, hb, hn]

/-- The call when the three setup steps succeed. -/
theorem ListenAndServe_of_setup_ok (env : Env) (ctx : Context)
    (httpsPort httpPort : Int) (handler : Handler) (opts : Option ListenOpts)
    (hp : httpsPort > 0)
    (c : Option Certificate) (k : Option Signer) (t1 : List Effect)
    (hca : resolveCA env (optsOrEmpty opts) = (Except.ok (c, k), t1))
    (l : TCPListener) (hb : env.NewTCPListener "0.0.0.0" httpsPort = Except.ok l)
    (dl : DynListener) (dh : Handler)
    (hn : env.NewListener l (resolveStorage env (optsOrEmpty opts)).1 c k = Except.ok (dl, dh)) :
    ListenAndServe env ctx httpsPort httpPort handler opts =
      httpBranch ctx httpPort (HTTPRedirect (wrapHandler dh handler))
        (t1 ++ [Effect.newTCPListener "0.0.0.0" httpsPort] ++
          (resolveStorage env (optsOrEmpty opts)).2 ++
          [Effect.newListener l (resolveStorage env (optsOrEmpty opts)).1 c k] ++
          [Effect.httpRedirect (wrapHandler dh handler),
           Effect.go (Goroutine.httpsServe httpsPort { Handler := wrapHandler dh handler } dl),
           Effect.go (Goroutine.httpsShutdown ctx { Handler := wrapHandler dh handler })]) := by
  unfold optsOrEmpty at hca hn ⊢
  simp [ListenAndServe, hp, hca, hb, hn]

/-- Every call follows exactly one of five paths. -/
theorem ListenAndServe_cases (env : Env) (ctx : Context) (httpsPort httpPort : Int)
    (handler : Handler) (opts : Option ListenOpts) :
    (¬ httpsPort > 0 ∧
      ListenAndServe env ctx httpsPort httpPort handler opts =
        httpBranch ctx httpPort handler []) ∨
    (httpsPort > 0 ∧ ∃ e t1,
      resolveCA env (optsOrEmpty opts) = (Except.error e, t1) ∧
      ListenAndServe env ctx httpsPort httpPort handler opts =
        { err := some e, trace := t1 }) ∨
    (httpsPort > 0 ∧ ∃ c k t1 e,
      resolveCA env (optsOrEmpty opts) = (Except.ok (c, k), t1) ∧
      env.NewTCPListener "0.0.0.0" httpsPort = Except.error e ∧
      ListenAndServe env ctx httpsPort httpPort handler opts =
        { err := some e, trace := t1 ++ [Effect.newTCPListener "0.0.0.0" httpsPort] }) ∨
    (httpsPort > 0 ∧ ∃ c k t1 l e,
      resolveCA env (optsOrEmpty opts) = (Except.ok (c, k), t1) ∧
      env.NewTCPListener "0.0.0.0" httpsPort = Except.ok l ∧
      env.NewListener l (resolveStorage env (optsOrEmpty opts)).1 c k = Except.error e ∧
      ListenAndServe env ctx httpsPort httpPort handler opts =
        { err := some e
          trace := t1 ++ [Effect.newTCPListener "0.0.0.0" httpsPort] ++
            (resolveStorage env (optsOrEmpty opts)).2 ++
            [Effect.newListener l (resolveStorage env (optsOrEmpty opts)).1 c k] }) ∨
    (httpsPort > 0 ∧ ∃ c k t1 l dl dh,
      resolveCA env (optsOrEmpty opts) = (Except.ok (c, k), t1) ∧
      env.NewTCPListener "0.0.0.0" httpsPort = Except.ok l ∧
      env.NewListener l (resolveStorage env (optsOrEmpty opts)).1 c k = Except.ok (dl, dh) ∧
      ListenAndServe env ctx httpsPort httpPort handler opts =
        httpBranch ctx httpPort (HTTPRedirect (wrapHandler dh handler))
          (t1 ++ [Effect.newTCPListener "0.0.0.0" httpsPort] ++
            (resolveStorage env (optsOrEmpty opts)).2 ++
            [Effect.newListener l (resolveStorage env (optsOrEmpty opts)).1 c k] ++
            [Effect.httpRedirect (wrapHandler dh handler),
             Effect.go (Goroutine.httpsServe httpsPort
               { Handler := wrapHandler dh handler } dl),
             Effect.go (Goroutine.httpsShutdown ctx
               { Handler := wrapHandler dh handler })])) := by
  by_cases hp : httpsPort > 0
  · rcases hca : resolveCA env (optsOrEmpty opts) with ⟨e | ⟨c, k⟩, t1⟩
    · exact Or.inr (Or.inl ⟨hp, e, t1, rfl,
        ListenAndServe_of_ca_error env ctx httpsPort httpPort handler opts hp e t1 hca⟩)
    · rcases hb : env.NewTCPListener "0.0.0.0" httpsPort with e | l
      · exact Or.inr (Or.inr (Or.inl ⟨hp, c, k, t1, e, rfl, rfl,
          ListenAndServe_of_bind_error env ctx httpsPort httpPort handler opts hp c k t1 hca
            e hb⟩))
      · rcases hn : env.NewListener l (resolveStorage env (optsOrEmpty opts)).1 c k
          with e | ⟨dl, dh⟩
        · exact Or.inr (Or.inr (Or.inr (Or.inl ⟨hp, c, k, t1, l, e, rfl, rfl, hn,
            ListenAndServe_of_newListener_error env ctx httpsPort httpPort handler opts hp
              c k t1 hca l hb e hn⟩)))
        · exact Or.inr (Or.inr (Or.inr (Or.inr ⟨hp, c, k, t1, l, dl, dh, rfl, rfl, hn,
            ListenAndServe_of_setup_ok env ctx httpsPort httpPort handler opts hp
              c k t1 hca l hb dl dh hn⟩)))
  · exact Or.inl ⟨hp, ListenAndServe_of_nonpos env ctx httpsPort httpPort handler opts hp⟩

/-- The trace of the HTTP branch is the trace it is entered with, followed by `go` statements only. -/
theorem httpBranch_trace (ctx : Context) (httpPort : Int) (h : Handler) (t : List Effect) :
    (httpBranch ctx httpPort h t).trace =
      t ++ (if httpPort > 0 then
        [Effect.go (Goroutine.httpServe httpPort
           { Addr := "0.0.0.0:" ++ toString httpPort, Handler := h }),
         Effect.go (Goroutine.httpShutdown ctx
           { Addr := "0.0.0.0:" ++ toString httpPort, Handler := h })]
        else []) := by
  unfold httpBranch
  split <;> simp

/-- What CA resolution gives: the supplied pair without any call, or the result of the one call of `factory.LoadOrGenCA`. -/
theorem resolveCA_cases (env : Env) (opts : Option ListenOpts) :
    (caSupplied opts = true ∧ ∃ c k, (optsOrEmpty opts).CA = some c ∧
        (optsOrEmpty opts).CAKey = some k ∧
        resolveCA env (optsOrEmpty opts) = (Except.ok (some c, some k), [])) ∨
    (caSupplied opts = false ∧
        resolveCA env (optsOrEmpty opts) = (env.LoadOrGenCA, [Effect.loadOrGenCA])) := by
  cases h : caSupplied opts
  · exact Or.inr ⟨rfl, resolveCA_of_not_supplied env opts h⟩
  · exact Or.inl ⟨rfl, resolveCA_of_supplied env opts h⟩

theorem resolveCA_trace (env : Env) (o : ListenOpts) :
    (resolveCA env o).2 = [] ∨ (resolveCA env o).2 = [Effect.loadOrGenCA] := by
  unfold resolveCA
  split <;> simp

theorem resolveStorage_trace (env : Env) (o : ListenOpts) :
    (resolveStorage env o).2 = [] ∨ (resolveStorage env o).2 = [Effect.memoryNew] := by
  unfold resolveStorage
  split <;> simp

/-- The call of `dynamiclistener.NewListener` is in the trace exactly when CA resolution and the bind succeeded, and then with the resolved arguments. -/
theorem newListener_mem_trace_iff (env : Env) (ctx : Context) (httpsPort httpPort : Int)
    (handler : Handler) (opts : Option ListenOpts)
    (l : TCPListener) (s : TLSStorage) (c : Option Certificate) (k : Option Signer) :
    Effect.newListener l s c k ∈
        (ListenAndServe env ctx httpsPort httpPort handler opts).trace ↔
      httpsPort > 0 ∧
      (resolveCA env (optsOrEmpty opts)).1 = Except.ok (c, k) ∧
      env.NewTCPListener "0.0.0.0" httpsPort = Except.ok l ∧
      s = (resolveStorage env (optsOrEmpty opts)).1 := by
  have hS := resolveStorage_trace env (optsOrEmpty opts)
  have hC := resolveCA_trace env (optsOrEmpty opts)
  rcases ListenAndServe_cases env ctx httpsPort httpPort handler opts with
    ⟨hp, hL⟩ | ⟨hp, e1, t1, hca, hL⟩ | ⟨hp, c1, k1, t1, e1, hca, hb, hL⟩ |
    ⟨hp, c1, k1, t1, l1, e1, hca, hb, hn, hL⟩ |
    ⟨hp, c1, k1, t1, l1, dl, dh, hca, hb, hn, hL⟩
  · rw [hL, httpBranch_trace]
    split <;> simp [hp]
  · rw [hca] at hC
    rcases hC with h | h <;> simp at h <;> subst h <;> simp [hL, hca]
  · rw [hca] at hC
    rcases hC with h | h <;> simp at h <;> subst h <;> simp [hL, hca, hb]
  · rw [hca] at hC
    rcases hC with h | h <;> simp at h <;> subst h <;>
      rcases hS with h2 | h2 <;> simp [hL, hca, hb, hp, h2] <;> tauto
  · rw [hca] at hC
    rw [hL, httpBranch_trace]
    rcases hC with h | h <;> simp at h <;> subst h <;>
      rcases hS with h2 | h2 <;> split <;> simp [hca, hb, hp, h2] <;> tauto

/-- C1: `ListenAndServe` returns the error `e` if and only if `httpsPort > 0`
and `e` is the error of the first HTTPS setup step that fails: (a) the CA pair
is not supplied in full and `factory.LoadOrGenCA` fails with `e`, (b) the CA is
resolved and `dynamiclistener.NewTCPListener` fails with `e`, or (c)
`dynamiclistener.NewListener` was called and failed with `e`.  Hence the
result is non-nil exactly when one of the three steps fails, and it is nil
whenever `httpsPort <= 0`, whatever `httpPort` is. -/
theorem ListenAndServe_error_iff (env : Env) (ctx : Context) (httpsPort httpPort : Int)
    (handler : Handler) (opts : Option ListenOpts) :
    (∀ e : Error,
      (ListenAndServe env ctx httpsPort httpPort handler opts).err = some e ↔
        httpsPort > 0 ∧
        ((caSupplied opts = false ∧ env.LoadOrGenCA = Except.error e) ∨
         ((caSupplied opts = true ∨ ∃ ca, env.LoadOrGenCA = Except.ok ca) ∧
            env.NewTCPListener "0.0.0.0" httpsPort = Except.error e) ∨
         (∃ l s c k,
            Effect.newListener l s c k ∈
              (ListenAndServe env ctx httpsPort httpPort handler opts).trace ∧
            env.NewListener l s c k = Except.error e))) ∧
    ((ListenAndServe env ctx httpsPort httpPort handler opts).err ≠ none ↔
        httpsPort > 0 ∧
        ((caSupplied opts = false ∧ ∃ e, env.LoadOrGenCA = Except.error e) ∨
         (∃ e, env.NewTCPListener "0.0.0.0" httpsPort = Except.error e) ∨
         (∃ l s c k e,
            Effect.newListener l s c k ∈
              (ListenAndServe env ctx httpsPort httpPort handler opts).trace ∧
            env.NewListener l s c k = Except.error e))) ∧
    (httpsPort ≤ 0 →
      (ListenAndServe env ctx httpsPort httpPort handler opts).err = none) := by
  simp only [newListener_mem_trace_iff]
  rcases ListenAndServe_cases env ctx httpsPort httpPort handler opts with
    ⟨hp, hL⟩ | ⟨hp, e1, t1, hca, hL⟩ | ⟨hp, c, k, t1, e1, hca, hb, hL⟩ |
    ⟨hp, c, k, t1, l, e1, hca, hb, hn, hL⟩ | ⟨hp, c, k, t1, l, dl, dh, hca, hb, hn, hL⟩
  · simp [hL, hp, httpBranch_err]
  · rcases resolveCA_cases env opts with ⟨hs, c, k, -, -, hr⟩ | ⟨hs, hr⟩
    · rw [hr] at hca; simp at hca
    · rw [hr] at hca
      simp only [Prod.mk.injEq] at hca
      obtain ⟨h1, rfl⟩ := hca
      simp [hL, hp, hs, h1, hr]
  · rcases resolveCA_cases env opts with ⟨hs, c', k', -, -, hr⟩ | ⟨hs, hr⟩
    · simp [hL, hp, hs, hb]
    · rw [hr] at hca
      simp only [Prod.mk.injEq] at hca
      obtain ⟨h1, rfl⟩ := hca
      simp [hL, hp, hs, h1, hb]
  · rcases resolveCA_cases env opts with ⟨hs, c', k', -, -, hr⟩ | ⟨hs, hr⟩
    · rw [hr] at hca
      simp only [Prod.mk.injEq, Except.ok.injEq] at hca
      obtain ⟨⟨rfl, rfl⟩, rfl⟩ := hca
      simp [hL, hp, hs, hb, hn, hr]
      refine ⟨fun e => ⟨fun h => ⟨l, _, _, _, ⟨⟨rfl, rfl⟩, rfl, rfl⟩, h ▸ hn⟩, ?_⟩,
        ⟨l, _, _, _, ⟨⟨rfl, rfl⟩, rfl, rfl⟩, e1, hn⟩⟩
      rintro ⟨l1, s, c1, k1, ⟨⟨rfl, rfl⟩, rfl, rfl⟩, h⟩
      rw [hn] at h
      exact Except.error.inj h
    · rw [hr] at hca
      simp only [Prod.mk.injEq] at hca
      obtain ⟨h1, rfl⟩ := hca
      simp [hL, hp, hs, h1, hb, hn, hr]
      refine ⟨fun e => ⟨fun h => ⟨l, _, _, _, ⟨⟨rfl, rfl⟩, rfl, rfl⟩, h ▸ hn⟩, ?_⟩,
        ⟨l, _, _, _, ⟨⟨rfl, rfl⟩, rfl, rfl⟩, e1, hn⟩⟩
      rintro ⟨l1, s, c1, k1, ⟨⟨rfl, rfl⟩, rfl, rfl⟩, h⟩
      rw [hn] at h
      exact Except.error.inj h
  · rcases resolveCA_cases env opts with ⟨hs, c', k', -, -, hr⟩ | ⟨hs, hr⟩
    · rw [hr] at hca
      simp only [Prod.mk.injEq, Except.ok.injEq] at hca
      obtain ⟨⟨rfl, rfl⟩, rfl⟩ := hca
      simp [hL, hp, hs, hb, hn, hr, httpBranch_err]
    · rw [hr] at hca
      simp only [Prod.mk.injEq] at hca
      obtain ⟨h1, rfl⟩ := hca
      simp [hL, hp, hs, h1, hb, hn, hr, httpBranch_err]

/-- C1 at work: a failing bind is returned, and a call without HTTPS returns nil. -/
theorem ListenAndServe_error_iff_witness :
    (ListenAndServe envBindFail (Context.caller 1) 443 80 (Handler.foreign 1) none).err =
        some ⟨"address already in use"⟩ ∧
      (ListenAndServe envBindFail (Context.caller 1) 0 80 (Handler.foreign 1) none).err = none :=
  ⟨((ListenAndServe_error_iff envBindFail (Context.caller 1) 443 80 (Handler.foreign 1)
        none).1 ⟨"address already in use"⟩).2
      ⟨by decide, Or.inr (Or.inl ⟨Or.inr ⟨_, rfl⟩, rfl⟩)⟩,
   (ListenAndServe_error_iff envBindFail (Context.caller 1) 0 80 (Handler.foreign 1)
        none).2.2 (by decide)⟩

/-! ## The goroutines of a call -/

theorem scheduled_httpBranch (ctx : Context) (httpPort : Int) (h : Handler) (t : List Effect) :
    scheduled (httpBranch ctx httpPort h t) =
      scheduled { err := none, trace := t } ++
        (if httpPort > 0 then
          [Goroutine.httpServe httpPort
             { Addr := "0.0.0.0:" ++ toString httpPort, Handler := h },
           Goroutine.httpShutdown ctx
             { Addr := "0.0.0.0:" ++ toString httpPort, Handler := h }]
        else []) := by
  unfold httpBranch scheduled
  split <;> simp [List.filterMap_append]

/-- The goroutines of a call, path by path: none when a setup step fails, and otherwise the HTTPS pair (when `httpsPort > 0`) followed by the HTTP pair (when `httpPort > 0`). -/
theorem scheduled_cases (env : Env) (ctx : Context) (httpsPort httpPort : Int)
    (handler : Handler) (opts : Option ListenOpts) :
    (¬ httpsPort > 0 ∧
      (ListenAndServe env ctx httpsPort httpPort handler opts).err = none ∧
      scheduled (ListenAndServe env ctx httpsPort httpPort handler opts) =
        (if httpPort > 0 then
          [Goroutine.httpServe httpPort
             { Addr := "0.0.0.0:" ++ toString httpPort, Handler := handler },
           Goroutine.httpShutdown ctx
             { Addr := "0.0.0.0:" ++ toString httpPort, Handler := handler }]
        else [])) ∨
    (httpsPort > 0 ∧
      (ListenAndServe env ctx httpsPort httpPort handler opts).err ≠ none ∧
      scheduled (ListenAndServe env ctx httpsPort httpPort handler opts) = []) ∨
    (httpsPort > 0 ∧
      (ListenAndServe env ctx httpsPort httpPort handler opts).err = none ∧
      ∃ l s c k dl dh,
        Effect.newListener l s c k ∈
          (ListenAndServe env ctx httpsPort httpPort handler opts).trace ∧
        env.NewListener l s c k = Except.ok (dl, dh) ∧
        scheduled (ListenAndServe env ctx httpsPort httpPort handler opts) =
          [Goroutine.httpsServe httpsPort { Handler := wrapHandler dh handler } dl,
           Goroutine.httpsShutdown ctx { Handler := wrapHandler dh handler }] ++
          (if httpPort > 0 then
            [Goroutine.httpServe httpPort
               { Addr := "0.0.0.0:" ++ toString httpPort,
                 Handler := HTTPRedirect (wrapHandler dh handler) },
             Goroutine.httpShutdown ctx
               { Addr := "0.0.0.0:" ++ toString httpPort,
                 Handler := HTTPRedirect (wrapHandler dh handler) }]
          else [])) := by
  have hS := resolveStorage_trace env (optsOrEmpty opts)
  have hC := resolveCA_trace env (optsOrEmpty opts)
  rcases ListenAndServe_cases env ctx httpsPort httpPort handler opts with
    ⟨hp, hL⟩ | ⟨hp, e1, t1, hca, hL⟩ | ⟨hp, c1, k1, t1, e1, hca, hb, hL⟩ |
    ⟨hp, c1, k1, t1, l1, e1, hca, hb, hn, hL⟩ |
    ⟨hp, c1, k1, t1, l1, dl, dh, hca, hb, hn, hL⟩
  · refine Or.inl ⟨hp, ?_, ?_⟩
    · rw [hL, httpBranch_err]
    · rw [hL, scheduled_httpBranch]
      simp [scheduled]
  · refine Or.inr (Or.inl ⟨hp, by simp [hL], ?_⟩)
    rw [hca] at hC
    rcases hC with h | h <;> simp at h <;> subst h <;> simp [hL, scheduled]
  · refine Or.inr (Or.inl ⟨hp, by simp [hL], ?_⟩)
    rw [hca] at hC
    rcases hC with h | h <;> simp at h <;> subst h <;> simp [hL, scheduled]
  · refine Or.inr (Or.inl ⟨hp, by simp [hL], ?_⟩)
    rw [hca] at hC
    rcases hC with h | h <;> simp at h <;> subst h <;>
      rcases hS with h2 | h2 <;> simp [hL, scheduled, h2]
  · refine Or.inr (Or.inr ⟨hp, by rw [hL, httpBranch_err], l1, _, c1, k1, dl, dh, ?_, hn, ?_⟩)
    · rw [newListener_mem_trace_iff]
      exact ⟨hp, by rw [hca], hb, rfl⟩
    · rw [hca] at hC
      rw [hL, scheduled_httpBranch]
      rcases hC with h | h <;> simp at h <;> subst h <;>
        rcases hS with h2 | h2 <;> simp [scheduled, h2]

/-- C2: whenever `ListenAndServe` returns a non-nil error, the call has executed no `go` statement: no goroutine of any of the four kinds is scheduled, whatever `httpPort` is. -/
theorem ListenAndServe_error_schedules_nothing (env : Env) (ctx : Context)
    (httpsPort httpPort : Int) (handler : Handler) (opts : Option ListenOpts)
    (h : (ListenAndServe env ctx httpsPort httpPort handler opts).err ≠ none) :
    scheduled (ListenAndServe env ctx httpsPort httpPort handler opts) = [] ∧
      ∀ t : Goroutine,
        Effect.go t ∉ (ListenAndServe env ctx httpsPort httpPort handler opts).trace := by
  have key : scheduled (ListenAndServe env ctx httpsPort httpPort handler opts) = [] := by
    rcases scheduled_cases env ctx httpsPort httpPort handler opts with
      ⟨-, h0, -⟩ | ⟨-, -, h1⟩ | ⟨-, h0, -⟩
    · exact absurd h0 h
    · exact h1
    · exact absurd h0 h
  refine ⟨key, fun t ht => ?_⟩
  have : t ∈ scheduled (ListenAndServe env ctx httpsPort httpPort handler opts) := by
    unfold scheduled
    rw [List.mem_filterMap]
    exact ⟨Effect.go t, ht, rfl⟩
  rw [key] at this
  exact absurd this (List.not_mem_nil t)

/-- C2 at work: both ports requested, the HTTPS port cannot be bound. -/
theorem ListenAndServe_error_schedules_nothing_witness :
    (ListenAndServe envBindFail (Context.caller 1) 443 80 (Handler.foreign 1) none).err ≠ none ∧
      scheduled (ListenAndServe envBindFail (Context.caller 1) 443 80 (Handler.foreign 1)
        none) = [] :=
  ⟨by decide,
   (ListenAndServe_error_schedules_nothing envBindFail (Context.caller 1) 443 80
      (Handler.foreign 1) none (by decide)).1⟩

/-- C3: when `ListenAndServe` returns nil, the goroutines it has scheduled are, in order, the HTTPS serve task and the HTTPS shutdown watcher if `httpsPort > 0`, then the HTTP serve task and the HTTP shutdown watcher if `httpPort > 0`, and nothing else; and when both ports are `<= 0` the call returns nil with an empty trace (no collaborator called, no goroutine started). -/
theorem ListenAndServe_ok_schedules (env : Env) (ctx : Context)
    (httpsPort httpPort : Int) (handler : Handler) (opts : Option ListenOpts) :
    ((ListenAndServe env ctx httpsPort httpPort handler opts).err = none →
      ∃ (tlsServer : HTTPServer) (dynListener : DynListener) (httpServer : HTTPServer),
        scheduled (ListenAndServe env ctx httpsPort httpPort handler opts) =
          (if httpsPort > 0 then
            [Goroutine.httpsServe httpsPort tlsServer dynListener,
             Goroutine.httpsShutdown ctx tlsServer]
           else []) ++
          (if httpPort > 0 then
            [Goroutine.httpServe httpPort httpServer,
             Goroutine.httpShutdown ctx httpServer]
           else [])) ∧
    (httpsPort ≤ 0 → httpPort ≤ 0 →
      ListenAndServe env ctx httpsPort httpPort handler opts = { err := none, trace := [] }) := by
  constructor
  · intro h
    rcases scheduled_cases env ctx httpsPort httpPort handler opts with
      ⟨hp, -, hs⟩ | ⟨-, h1, -⟩ | ⟨hp, -, l, s, c, k, dl, dh, -, -, hs⟩
    · refine ⟨{ Handler := handler }, ⟨0⟩,
        { Addr := "0.0.0.0:" ++ toString httpPort, Handler := handler }, ?_⟩
      rw [hs]
      simp [hp]
    · exact absurd h h1
    · refine ⟨{ Handler := wrapHandler dh handler }, dl,
        { Addr := "0.0.0.0:" ++ toString httpPort,
          Handler := HTTPRedirect (wrapHandler dh handler) }, ?_⟩
      rw [hs]
      simp [hp]
  · intro h1 h2
    rw [ListenAndServe_of_nonpos env ctx httpsPort httpPort handler opts (not_lt.mpr h1)]
    simp [httpBranch, not_lt.mpr h2]

/-- C3 at work: a successful call with both ports, and a call with none. -/
theorem ListenAndServe_ok_schedules_witness :
    (∃ (tlsServer : HTTPServer) (dynListener : DynListener) (httpServer : HTTPServer),
      scheduled (ListenAndServe envOK (Context.caller 1) 443 80 (Handler.foreign 1) none) =
        (if (443 : Int) > 0 then
          [Goroutine.httpsServe 443 tlsServer dynListener,
           Goroutine.httpsShutdown (Context.caller 1) tlsServer]
         else []) ++
        (if (80 : Int) > 0 then
          [Goroutine.httpServe 80 httpServer,
           Goroutine.httpShutdown (Context.caller 1) httpServer]
         else [])) ∧
      ListenAndServe envOK (Context.caller 1) 0 (-1) (Handler.foreign 1) none =
        { err := none, trace := [] } :=
  ⟨(ListenAndServe_ok_schedules envOK (Context.caller 1) 443 80 (Handler.foreign 1) none).1
      (by decide),
   (ListenAndServe_ok_schedules envOK (Context.caller 1) 0 (-1) (Handler.foreign 1) none).2
      (by decide) (by decide)⟩

/-! ## The installed handlers -/

/-- No handler is its own redirect-wrapped composition. -/
theorem ne_redirect_wrap (dh handler : Handler) :
    handler ≠ HTTPRedirect (wrapHandler dh handler) := by
  intro h
  have hsz := congrArg sizeOf h
  simp [HTTPRedirect, wrapHandler] at hsz
  omega

/-- A composition built by `wrapHandler` is never a value of `HTTPRedirect`. -/
theorem wrap_ne_redirect (dh handler h : Handler) :
    wrapHandler dh handler ≠ HTTPRedirect h := by
  simp [HTTPRedirect, wrapHandler]

/-- C4: in a successful call with `httpPort > 0`, the HTTP serve task and the HTTP shutdown watcher exist and every HTTP server they hold has, as handler, the caller's handler itself when `httpsPort <= 0`, and `HTTPRedirect(wrapHandler(dynHandler, handler))` for the `dynHandler` returned by `NewListener` when `httpsPort > 0`; the handler is of the redirect-wrapped form if and only if `httpsPort > 0`. -/
theorem http_handler_installed (env : Env) (ctx : Context)
    (httpsPort httpPort : Int) (handler : Handler) (opts : Option ListenOpts)
    (hok : (ListenAndServe env ctx httpsPort httpPort handler opts).err = none)
    (hhttp : httpPort > 0) :
    (∃ httpServer : HTTPServer,
      Goroutine.httpServe httpPort httpServer ∈
        scheduled (ListenAndServe env ctx httpsPort httpPort handler opts) ∧
      Goroutine.httpShutdown ctx httpServer ∈
        scheduled (ListenAndServe env ctx httpsPort httpPort handler opts)) ∧
    ∀ (port : Int) (c : Context) (srv : HTTPServer),
      (Goroutine.httpServe port srv ∈
          scheduled (ListenAndServe env ctx httpsPort httpPort handler opts) ∨
        Goroutine.httpShutdown c srv ∈
          scheduled (ListenAndServe env ctx httpsPort httpPort handler opts)) →
      (httpsPort ≤ 0 → srv.Handler = handler) ∧
      (httpsPort > 0 → ∃ l s ca k dl dynHandler,
        Effect.newListener l s ca k ∈
          (ListenAndServe env ctx httpsPort httpPort handler opts).trace ∧
        env.NewListener l s ca k = Except.ok (dl, dynHandler) ∧
        srv.Handler = HTTPRedirect (wrapHandler dynHandler handler)) ∧
      ((∃ dynHandler, srv.Handler = HTTPRedirect (wrapHandler dynHandler handler)) ↔
        httpsPort > 0) := by
  rcases scheduled_cases env ctx httpsPort httpPort handler opts with
    ⟨hp, -, hs⟩ | ⟨-, h1, -⟩ | ⟨hp, -, l, s, c, k, dl, dh, hmem, hn, hs⟩
  · rw [hs]
    simp only [hhttp, if_true]
    refine ⟨⟨_, List.mem_cons_self _ _, List.mem_cons_of_mem _ (List.mem_cons_self _ _)⟩, ?_⟩
    intro port c srv hsrv
    have hH : srv.Handler = handler := by
      rcases hsrv with h | h <;> simp at h
      · rw [h.2]
      · rw [h.2]
    refine ⟨fun _ => hH, fun h => absurd h hp, ?_⟩
    constructor
    · rintro ⟨dh, hdh⟩
      rw [hH] at hdh
      exact absurd hdh (ne_redirect_wrap dh handler)
    · intro h
      exact absurd h hp
  · exact absurd hok h1
  · rw [hs]
    simp only [hhttp, if_true]
    refine ⟨⟨{ Addr := "0.0.0.0:" ++ toString httpPort,
               Handler := HTTPRedirect (wrapHandler dh handler) }, by simp, by simp⟩, ?_⟩
    intro port c' srv hsrv
    have hH : srv.Handler = HTTPRedirect (wrapHandler dh handler) := by
      rcases hsrv with h | h <;> simp at h
      · rw [h.2]
      · rw [h.2]
    refine ⟨fun h => absurd hp (not_lt.mpr h), fun _ => ⟨l, s, c, k, dl, dh, hmem, hn, hH⟩, ?_⟩
    exact ⟨fun _ => hp, fun _ => ⟨dh, hH⟩⟩

/-- C4 at work: HTTP alone serves the caller's handler, unmodified. -/
theorem http_handler_installed_witness :
    (ListenAndServe envOK (Context.caller 1) 0 80 (Handler.foreign 1) none).err = none ∧
      Goroutine.httpServe 80
          { Addr := "0.0.0.0:" ++ toString (80 : Int), Handler := Handler.foreign 1 } ∈
        scheduled (ListenAndServe envOK (Context.caller 1) 0 80 (Handler.foreign 1) none) ∧
      (({ Addr := "0.0.0.0:" ++ toString (80 : Int),
          Handler := Handler.foreign 1 } : HTTPServer).Handler = Handler.foreign 1) ∧
      ((∃ dynHandler,
          ({ Addr := "0.0.0.0:" ++ toString (80 : Int),
             Handler := Handler.foreign 1 } : HTTPServer).Handler =
            HTTPRedirect (wrapHandler dynHandler (Handler.foreign 1))) ↔ (0 : Int) > 0) :=
  have hmem : Goroutine.httpServe 80
      { Addr := "0.0.0.0:" ++ toString (80 : Int), Handler := Handler.foreign 1 } ∈
      scheduled (ListenAndServe envOK (Context.caller 1) 0 80 (Handler.foreign 1) none) :=
    List.mem_cons_self _ _
  have h := (http_handler_installed envOK (Context.caller 1) 0 80 (Handler.foreign 1) none
    (by decide) (by decide)).2 80 (Context.caller 1)
    { Addr := "0.0.0.0:" ++ toString (80 : Int), Handler := Handler.foreign 1 }
    (Or.inl hmem)
  ⟨by decide, hmem, h.1 (by decide), h.2.2⟩

/-- C5: in a successful call with `httpsPort > 0`, whatever `httpPort` is, the HTTPS serve task and its shutdown watcher exist, and the server they hold has as handler exactly `wrapHandler(dynHandler, handler)` for the `dynHandler` returned by `NewListener`: it is not a value of `HTTPRedirect`, it is the argument `HTTPRedirect` was called with, and the redirect wrapper sits only on the handler of the HTTP server. -/
theorem https_handler_installed (env : Env) (ctx : Context)
    (httpsPort httpPort : Int) (handler : Handler) (opts : Option ListenOpts)
    (hok : (ListenAndServe env ctx httpsPort httpPort handler opts).err = none)
    (hhttps : httpsPort > 0) :
    (∃ (tlsServer : HTTPServer) (dynListener : DynListener),
      Goroutine.httpsServe httpsPort tlsServer dynListener ∈
        scheduled (ListenAndServe env ctx httpsPort httpPort handler opts) ∧
      Goroutine.httpsShutdown ctx tlsServer ∈
        scheduled (ListenAndServe env ctx httpsPort httpPort handler opts)) ∧
    ∀ (port : Int) (c : Context) (srv : HTTPServer) (dynListener : DynListener),
      (Goroutine.httpsServe port srv dynListener ∈
          scheduled (ListenAndServe env ctx httpsPort httpPort handler opts) ∨
        Goroutine.httpsShutdown c srv ∈
          scheduled (ListenAndServe env ctx httpsPort httpPort handler opts)) →
      (∃ l s ca k dl dynHandler,
        Effect.newListener l s ca k ∈
          (ListenAndServe env ctx httpsPort httpPort handler opts).trace ∧
        env.NewListener l s ca k = Except.ok (dl, dynHandler) ∧
        srv.Handler = wrapHandler dynHandler handler) ∧
      (∀ h : Handler, srv.Handler ≠ HTTPRedirect h) ∧
      Effect.httpRedirect srv.Handler ∈
        (ListenAndServe env ctx httpsPort httpPort handler opts).trace ∧
      (∀ (port2 : Int) (httpServer : HTTPServer),
        Goroutine.httpServe port2 httpServer ∈
          scheduled (ListenAndServe env ctx httpsPort httpPort handler opts) →
        httpServer.Handler = HTTPRedirect srv.Handler) := by
  rcases scheduled_cases env ctx httpsPort httpPort handler opts with
    ⟨hp, -, -⟩ | ⟨-, h1, -⟩ | ⟨hp, -, l, s, c, k, dl, dh, hmem, hn, hs⟩
  · exact absurd hhttps hp
  · exact absurd hok h1
  · have hred : Effect.httpRedirect (wrapHandler dh handler) ∈
        (ListenAndServe env ctx httpsPort httpPort handler opts).trace := by
      rcases ListenAndServe_cases env ctx httpsPort httpPort handler opts with
        ⟨hp', -⟩ | ⟨-, e1, t1, -, hL⟩ | ⟨-, c1, k1, t1, e1, -, -, hL⟩ |
        ⟨-, c1, k1, t1, l1, e1, -, -, -, hL⟩ |
        ⟨-, c1, k1, t1, l1, dl1, dh1, hca, hb, hn1, hL⟩
      · exact absurd hp hp'
      · rw [hL] at hok; simp at hok
      · rw [hL] at hok; simp at hok
      · rw [hL] at hok; simp at hok
      · rw [newListener_mem_trace_iff] at hmem
        obtain ⟨-, h1, h2, h3⟩ := hmem
        rw [hca] at h1
        simp only [Except.ok.injEq, Prod.mk.injEq] at h1
        obtain ⟨rfl, rfl⟩ := h1
        rw [hb] at h2
        simp only [Except.ok.injEq] at h2
        subst h2
        subst h3
        rw [hn] at hn1
        simp only [Except.ok.injEq, Prod.mk.injEq] at hn1
        obtain ⟨rfl, rfl⟩ := hn1
        rw [hL, httpBranch_trace]
        simp
    rw [hs]
    refine ⟨⟨{ Handler := wrapHandler dh handler }, dl, by simp, by simp⟩, ?_⟩
    intro port c' srv dl' hsrv
    have hH : srv.Handler = wrapHandler dh handler := by
      rcases hsrv with h | h
      · by_cases hq : httpPort > 0 <;> simp [hq] at h <;> rw [h.2.1]
      · by_cases hq : httpPort > 0 <;> simp [hq] at h <;> rw [h.2]
    refine ⟨⟨l, s, c, k, dl, dh, hmem, hn, hH⟩, ?_, ?_, ?_⟩
    · intro h
      rw [hH]
      exact wrap_ne_redirect dh handler h
    · rw [hH]
      exact hred
    · intro port2 httpServer hmem2
      rw [hH]
      by_cases hq : httpPort > 0 <;> simp [hq] at hmem2
      rw [hmem2.2]

/-- C5 at work: both listeners started. -/
theorem https_handler_installed_witness :
    ∃ (tlsServer : HTTPServer) (dynListener : DynListener),
      Goroutine.httpsServe 443 tlsServer dynListener ∈
        scheduled (ListenAndServe envOK (Context.caller 1) 443 80 (Handler.foreign 1) none) ∧
      Goroutine.httpsShutdown (Context.caller 1) tlsServer ∈
        scheduled (ListenAndServe envOK (Context.caller 1) 443 80 (Handler.foreign 1) none) :=
  (https_handler_installed envOK (Context.caller 1) 443 80 (Handler.foreign 1) none
    (by decide) (by decide)).1

/-! ## The arguments of `NewListener` -/

/-- The calls of `factory.LoadOrGenCA`, `memory.New` and `dynamiclistener.NewListener` a call makes, path by path. -/
theorem collaborator_calls (env : Env) (ctx : Context) (httpsPort httpPort : Int)
    (handler : Handler) (opts : Option ListenOpts) (hp : httpsPort > 0) :
    List.count Effect.loadOrGenCA
        (ListenAndServe env ctx httpsPort httpPort handler opts).trace =
      (resolveCA env (optsOrEmpty opts)).2.length ∧
    (∀ l, env.NewTCPListener "0.0.0.0" httpsPort = Except.ok l →
      ∀ c k, (resolveCA env (optsOrEmpty opts)).1 = Except.ok (c, k) →
        newListenerCalls (ListenAndServe env ctx httpsPort httpPort handler opts).trace =
          [(l, (resolveStorage env (optsOrEmpty opts)).1, c, k)] ∧
        List.count Effect.memoryNew
            (ListenAndServe env ctx httpsPort httpPort handler opts).trace =
          (resolveStorage env (optsOrEmpty opts)).2.length) := by
  have hS := resolveStorage_trace env (optsOrEmpty opts)
  have hC := resolveCA_trace env (optsOrEmpty opts)
  rcases ListenAndServe_cases env ctx httpsPort httpPort handler opts with
    ⟨hp', -⟩ | ⟨-, e1, t1, hca, hL⟩ | ⟨-, c1, k1, t1, e1, hca, hb, hL⟩ |
    ⟨-, c1, k1, t1, l1, e1, hca, hb, hn, hL⟩ |
    ⟨-, c1, k1, t1, l1, dl, dh, hca, hb, hn, hL⟩
  · exact absurd hp hp'
  · rw [hca] at hC ⊢
    rcases hC with h | h <;> simp at h <;> subst h <;> simp [hL]
  · rw [hca] at hC ⊢
    rcases hC with h | h <;> simp at h <;> subst h <;> simp [hL, hb]
  · rw [hca] at hC ⊢
    rcases hC with h | h <;> simp at h <;> subst h <;>
      rcases hS with h2 | h2 <;> simp [hL, hb, h2, newListenerCalls]
  · rw [hca] at hC ⊢
    rw [hL, httpBranch_trace]
    rcases hC with h | h <;> simp at h <;> subst h <;>
      rcases hS with h2 | h2 <;> by_cases hq : httpPort > 0 <;>
      simp [hb, h2, hq, newListenerCalls]

/-- C7: in a call with `httpsPort > 0`, if the options hold both a CA certificate and a CA key then `factory.LoadOrGenCA` is not called and every call of `NewListener` (there is exactly one when the bind succeeds) receives exactly that pair; if the options are nil or lack the certificate or the key, then `factory.LoadOrGenCA` is called exactly once and, when it succeeds, the certificate and the key passed to `NewListener` are both the ones it returned, a partially supplied value being dropped. -/
theorem ca_resolution (env : Env) (ctx : Context) (httpsPort httpPort : Int)
    (handler : Handler) (opts : Option ListenOpts) (hp : httpsPort > 0) :
    (∀ (o : ListenOpts) (c : Certificate) (k : Signer),
      opts = some o → o.CA = some c → o.CAKey = some k →
        Effect.loadOrGenCA ∉ (ListenAndServe env ctx httpsPort httpPort handler opts).trace ∧
        (∀ l s c1 k1,
          Effect.newListener l s c1 k1 ∈
            (ListenAndServe env ctx httpsPort httpPort handler opts).trace →
          c1 = some c ∧ k1 = some k) ∧
        (∀ l, env.NewTCPListener "0.0.0.0" httpsPort = Except.ok l →
          ∃ s, newListenerCalls
              (ListenAndServe env ctx httpsPort httpPort handler opts).trace =
            [(l, s, some c, some k)])) ∧
    ((opts = none ∨ ∃ o, opts = some o ∧ (o.CA = none ∨ o.CAKey = none)) →
        List.count Effect.loadOrGenCA
          (ListenAndServe env ctx httpsPort httpPort handler opts).trace = 1 ∧
        ∀ (c : Option Certificate) (k : Option Signer),
          env.LoadOrGenCA = Except.ok (c, k) →
            (∀ l s c1 k1,
              Effect.newListener l s c1 k1 ∈
                (ListenAndServe env ctx httpsPort httpPort handler opts).trace →
              c1 = c ∧ k1 = k) ∧
            (∀ l, env.NewTCPListener "0.0.0.0" httpsPort = Except.ok l →
              ∃ s, newListenerCalls
                  (ListenAndServe env ctx httpsPort httpPort handler opts).trace =
                [(l, s, c, k)])) := by
  have hcalls := collaborator_calls env ctx httpsPort httpPort handler opts hp
  constructor
  · intro o c k ho hc hk
    have hr : resolveCA env (optsOrEmpty opts) = (Except.ok (some c, some k), []) := by
      subst ho
      simp [optsOrEmpty, resolveCA, hc, hk]
    refine ⟨?_, ?_, ?_⟩
    · have h0 := hcalls.1
      rw [hr] at h0
      exact List.count_eq_zero.mp h0
    · intro l s c1 k1 hmem
      rw [newListener_mem_trace_iff, hr] at hmem
      have h1 := hmem.2.1
      simp only [Except.ok.injEq, Prod.mk.injEq] at h1
      exact ⟨h1.1.symm, h1.2.symm⟩
    · intro l hl
      exact ⟨_, (hcalls.2 l hl (some c) (some k) (by rw [hr])).1⟩
  · intro hno
    have hs : caSupplied opts = false := by
      rcases hno with rfl | ⟨o, rfl, h | h⟩
      · rfl
      · simp [caSupplied, h]
      · simp [caSupplied, h]
    have hr := resolveCA_of_not_supplied env opts hs
    refine ⟨?_, ?_⟩
    · have h0 := hcalls.1
      rw [hr] at h0
      exact h0
    · intro c k hca
      refine ⟨?_, ?_⟩
      · intro l s c1 k1 hmem
        rw [newListener_mem_trace_iff, hr, hca] at hmem
        have h1 := hmem.2.1
        simp only [Except.ok.injEq, Prod.mk.injEq] at h1
        exact ⟨h1.1.symm, h1.2.symm⟩
      · intro l hl
        exact ⟨_, (hcalls.2 l hl c k (by rw [hr, hca])).1⟩

/-- C7 at work: a certificate without a key falls back to `factory.LoadOrGenCA`. -/
theorem ca_resolution_witness :
    List.count Effect.loadOrGenCA
        (ListenAndServe envOK (Context.caller 1) 443 80 (Handler.foreign 1)
          (some { CA := some ⟨5⟩ })).trace = 1 ∧
      ∃ s, newListenerCalls
          (ListenAndServe envOK (Context.caller 1) 443 80 (Handler.foreign 1)
            (some { CA := some ⟨5⟩ })).trace =
        [(⟨443⟩, s, some ⟨1⟩, some ⟨2⟩)] :=
  ⟨((ca_resolution envOK (Context.caller 1) 443 80 (Handler.foreign 1)
      (some { CA := some ⟨5⟩ }) (by decide)).2
        (Or.inr ⟨_, rfl, Or.inr rfl⟩)).1,
   (((ca_resolution envOK (Context.caller 1) 443 80 (Handler.foreign 1)
      (some { CA := some ⟨5⟩ }) (by decide)).2
        (Or.inr ⟨_, rfl, Or.inr rfl⟩)).2 (some ⟨1⟩) (some ⟨2⟩) rfl).2 ⟨443⟩ rfl⟩

/-- Only calls and `go` statements present in the source occur in a trace: no listener is closed and no storage method is called. -/
theorem trace_all_inSource (env : Env) (ctx : Context) (httpsPort httpPort : Int)
    (handler : Handler) (opts : Option ListenOpts) :
    (ListenAndServe env ctx httpsPort httpPort handler opts).trace.all Effect.inSource = true := by
  have hS := resolveStorage_trace env (optsOrEmpty opts)
  have hC := resolveCA_trace env (optsOrEmpty opts)
  rcases ListenAndServe_cases env ctx httpsPort httpPort handler opts with
    ⟨hp', hL⟩ | ⟨-, e1, t1, hca, hL⟩ | ⟨-, c1, k1, t1, e1, hca, hb, hL⟩ |
    ⟨-, c1, k1, t1, l1, e1, hca, hb, hn, hL⟩ |
    ⟨-, c1, k1, t1, l1, dl, dh, hca, hb, hn, hL⟩
  · rw [hL, httpBranch_trace]
    by_cases hq : httpPort > 0 <;> simp [hq, Effect.inSource]
  · rw [hca] at hC
    rcases hC with h | h <;> simp at h <;> subst h <;> simp [hL, Effect.inSource]
  · rw [hca] at hC
    rcases hC with h | h <;> simp at h <;> subst h <;> simp [hL, Effect.inSource]
  · rw [hca] at hC
    rcases hC with h | h <;> simp at h <;> subst h <;>
      rcases hS with h2 | h2 <;> simp [hL, h2, Effect.inSource]
  · rw [hca] at hC
    rw [hL, httpBranch_trace]
    rcases hC with h | h <;> simp at h <;> subst h <;>
      rcases hS with h2 | h2 <;> by_cases hq : httpPort > 0 <;>
      simp [h2, hq, Effect.inSource]

theorem not_mem_trace_of_not_inSource (env : Env) (ctx : Context) (httpsPort httpPort : Int)
    (handler : Handler) (opts : Option ListenOpts) (e : Effect)
    (he : e.inSource = false) :
    e ∉ (ListenAndServe env ctx httpsPort httpPort handler opts).trace := by
  intro hmem
  have h := List.all_eq_true.mp
    (trace_all_inSource env ctx httpsPort httpPort handler opts) e hmem
  rw [he] at h
  exact Bool.false_ne_true h

/-- C8: whenever a call reaches `dynamiclistener.NewListener` (which needs `httpsPort > 0`), the storage it passes is the caller's `opts.Storage` when `opts` and `opts.Storage` are non-nil, without any call of `memory.New`, and otherwise the value of the one call of `memory.New`; a nil `opts` gives the same result and trace as an empty `ListenOpts`; and `ListenAndServe` itself calls no method of the storage. -/
theorem storage_resolution (env : Env) (ctx : Context) (httpsPort httpPort : Int)
    (handler : Handler) (opts : Option ListenOpts) :
    (∀ l s c k,
      Effect.newListener l s c k ∈
        (ListenAndServe env ctx httpsPort httpPort handler opts).trace →
      httpsPort > 0 ∧
      (∀ (o : ListenOpts) (st : TLSStorage), opts = some o → o.Storage = some st →
        s = st ∧
        Effect.memoryNew ∉ (ListenAndServe env ctx httpsPort httpPort handler opts).trace) ∧
      ((opts = none ∨ ∃ o, opts = some o ∧ o.Storage = none) →
        s = env.memoryNew ∧
        List.count Effect.memoryNew
          (ListenAndServe env ctx httpsPort httpPort handler opts).trace = 1)) ∧
    ListenAndServe env ctx httpsPort httpPort handler none =
      ListenAndServe env ctx httpsPort httpPort handler (some {}) ∧
    (∀ s : TLSStorage,
      Effect.storageGet s ∉ (ListenAndServe env ctx httpsPort httpPort handler opts).trace ∧
      Effect.storageUpdate s ∉
        (ListenAndServe env ctx httpsPort httpPort handler opts).trace) := by
  refine ⟨?_, rfl, fun s =>
    ⟨not_mem_trace_of_not_inSource env ctx httpsPort httpPort handler opts _ rfl,
     not_mem_trace_of_not_inSource env ctx httpsPort httpPort handler opts _ rfl⟩⟩
  intro l s c k hmem
  rw [newListener_mem_trace_iff] at hmem
  obtain ⟨hp, hca, hb, hs⟩ := hmem
  have hcount := ((collaborator_calls env ctx httpsPort httpPort handler opts hp).2
    l hb c k hca).2
  refine ⟨hp, ?_, ?_⟩
  · intro o st ho hst
    have hr : resolveStorage env (optsOrEmpty opts) = (st, []) := by
      subst ho
      simp [optsOrEmpty, resolveStorage, hst]
    rw [hr] at hs hcount
    exact ⟨hs, List.count_eq_zero.mp hcount⟩
  · intro hno
    have hr : resolveStorage env (optsOrEmpty opts) = (env.memoryNew, [Effect.memoryNew]) := by
      rcases hno with rfl | ⟨o, rfl, h⟩
      · rfl
      · simp [optsOrEmpty, resolveStorage, h]
    rw [hr] at hs hcount
    exact ⟨hs, hcount⟩

/-- C8 at work: a supplied storage is handed to `NewListener` as it is. -/
theorem storage_resolution_witness :
    Effect.newListener ⟨443⟩ ⟨9⟩ (some ⟨1⟩) (some ⟨2⟩) ∈
        (ListenAndServe envOK (Context.caller 1) 443 0 (Handler.foreign 1)
          (some { Storage := some ⟨9⟩ })).trace ∧
      ((⟨9⟩ : TLSStorage) = ⟨9⟩ ∧
        Effect.memoryNew ∉
          (ListenAndServe envOK (Context.caller 1) 443 0 (Handler.foreign 1)
            (some { Storage := some ⟨9⟩ })).trace) :=
  ⟨by decide,
   ((storage_resolution envOK (Context.caller 1) 443 0 (Handler.foreign 1)
      (some { Storage := some ⟨9⟩ })).1 ⟨443⟩ ⟨9⟩ (some ⟨1⟩) (some ⟨2⟩) (by decide)).2.1
        _ ⟨9⟩ rfl rfl⟩

/-- C10: when `httpsPort > 0`, the bind of `0.0.0.0:<httpsPort>` succeeds with listener `l` and the construction `NewListener(l, ...)` that follows fails with `e`, the call returns `e`, its trace contains the bind and no close of any listener, and no goroutine is scheduled: the bound listener is left open. -/
theorem bound_listener_not_closed (env : Env) (ctx : Context) (httpsPort httpPort : Int)
    (handler : Handler) (opts : Option ListenOpts)
    (hp : httpsPort > 0)
    (l : TCPListener) (hb : env.NewTCPListener "0.0.0.0" httpsPort = Except.ok l)
    (s : TLSStorage) (c : Option Certificate) (k : Option Signer) (e : Error)
    (hcall : Effect.newListener l s c k ∈
      (ListenAndServe env ctx httpsPort httpPort handler opts).trace)
    (hn : env.NewListener l s c k = Except.error e) :
    (ListenAndServe env ctx httpsPort httpPort handler opts).err = some e ∧
    Effect.newTCPListener "0.0.0.0" httpsPort ∈
      (ListenAndServe env ctx httpsPort httpPort handler opts).trace ∧
    (∀ l1 : TCPListener,
      Effect.closeListener l1 ∉
        (ListenAndServe env ctx httpsPort httpPort handler opts).trace) ∧
    scheduled (ListenAndServe env ctx httpsPort httpPort handler opts) = [] := by
  have hcall2 := hcall
  rw [newListener_mem_trace_iff] at hcall2
  obtain ⟨-, hck, -, hs⟩ := hcall2
  have hclose : ∀ l1 : TCPListener, Effect.closeListener l1 ∉
      (ListenAndServe env ctx httpsPort httpPort handler opts).trace := fun l1 =>
    not_mem_trace_of_not_inSource env ctx httpsPort httpPort handler opts _ rfl
  rcases ListenAndServe_cases env ctx httpsPort httpPort handler opts with
    ⟨hp', -⟩ | ⟨-, e1, t1, hca, hL⟩ | ⟨-, c1, k1, t1, e1, hca, hb1, hL⟩ |
    ⟨-, c1, k1, t1, l1, e1, hca, hb1, hn1, hL⟩ |
    ⟨-, c1, k1, t1, l1, dl, dh, hca, hb1, hn1, hL⟩
  · exact absurd hp hp'
  · rw [hca] at hck
    simp at hck
  · rw [hb] at hb1
    simp at hb1
  · rw [hca] at hck
    simp only [Except.ok.injEq, Prod.mk.injEq] at hck
    obtain ⟨rfl, rfl⟩ := hck
    rw [hb] at hb1
    simp only [Except.ok.injEq] at hb1
    subst hb1
    subst hs
    rw [hn] at hn1
    simp only [Except.error.injEq] at hn1
    subst hn1
    have herr : (ListenAndServe env ctx httpsPort httpPort handler opts).err = some e := by
      rw [hL]
    refine ⟨herr, by rw [hL]; simp, hclose, ?_⟩
    rcases scheduled_cases env ctx httpsPort httpPort handler opts with
      ⟨hp', -, -⟩ | ⟨-, -, h1⟩ | ⟨-, h0, -⟩
    · exact absurd hp hp'
    · exact h1
    · rw [herr] at h0
      simp at h0
  · rw [hca] at hck
    simp only [Except.ok.injEq, Prod.mk.injEq] at hck
    obtain ⟨rfl, rfl⟩ := hck
    rw [hb] at hb1
    simp only [Except.ok.injEq] at hb1
    subst hb1
    subst hs
    rw [hn] at hn1
    simp at hn1

/-- C10 at work: the port is bound, the construction fails, nothing closes the listener. -/
theorem bound_listener_not_closed_witness :
    (ListenAndServe envNewListenerFail (Context.caller 1) 443 80 (Handler.foreign 1) none).err =
        some ⟨"bad CA"⟩ ∧
      Effect.newTCPListener "0.0.0.0" 443 ∈
        (ListenAndServe envNewListenerFail (Context.caller 1) 443 80 (Handler.foreign 1)
          none).trace ∧
      Effect.closeListener ⟨443⟩ ∉
        (ListenAndServe envNewListenerFail (Context.caller 1) 443 80 (Handler.foreign 1)
          none).trace ∧
      scheduled (ListenAndServe envNewListenerFail (Context.caller 1) 443 80 (Handler.foreign 1)
        none) = [] :=
  have h := bound_listener_not_closed envNewListenerFail (Context.caller 1) 443 80
    (Handler.foreign 1) none (by decide) ⟨443⟩ rfl ⟨0⟩ (some ⟨1⟩) (some ⟨2⟩) ⟨"bad CA"⟩
    (by decide) rfl
  ⟨h.1, h.2.1, h.2.2.1 ⟨443⟩, h.2.2.2⟩

/-! ## wrapHandler -/

/-- What a handler does to the response writer does not depend on the calls logged before. -/
theorem ServeHTTP_rw (b : Behaviour) (h : Handler) (rw : ResponseWriter)
    (cs : List Invocation) (req : Request) :
    (ServeHTTP b h { rw := rw, calls := cs } req).map Conn.rw = serve b h rw req := by
  unfold serve
  induction h generalizing rw cs with
  | nil => simp [ServeHTTP]
  | foreign id => cases hb : b.foreign id rw req <;> simp [ServeHTTP, hb]
  | redirect next _ => cases hb : b.redirect next rw req <;> simp [ServeHTTP, hb]
  | wrapFunc handler next ih1 ih2 =>
    simp only [ServeHTTP]
    have h1 := ih1 rw (cs ++ [⟨Handler.wrapFunc handler next, req, rw⟩])
    have h1n := ih1 rw ([] ++ [⟨Handler.wrapFunc handler next, req, rw⟩])
    rcases hA : ServeHTTP b handler
        { rw := rw, calls := cs ++ [⟨Handler.wrapFunc handler next, req, rw⟩] } req
      with _ | ⟨rwA, csA⟩ <;>
      rcases hB : ServeHTTP b handler
        { rw := rw, calls := [] ++ [⟨Handler.wrapFunc handler next, req, rw⟩] } req
      with _ | ⟨rwB, csB⟩ <;>
      rw [hA] at h1 <;> rw [hB] at h1n <;> rw [← h1n] at h1 <;> simp at h1 ⊢
    subst h1
    rw [ih2 rwA csA, ih2 rwA csB]

/-- C6: for every pair of handlers, every request and every state of the response writer, serving with `wrapHandler(primary, secondary)` is serving with `primary` and then, once `primary` has returned, with `secondary`, on the same request and on the response writer as `primary` left it, whatever `primary` wrote; as transformers of the response-writer state, `wrapHandler(primary, secondary)` is `secondary` after `primary`; and for two handlers of other packages that return, the calls made are exactly one of `primary` followed by exactly one of `secondary`. -/
theorem wrapHandler_serves_both (b : Behaviour) (primary secondary : Handler)
    (conn : Conn) (req : Request) :
    ServeHTTP b (wrapHandler primary secondary) conn req =
      (ServeHTTP b primary
        { conn with
          calls := conn.calls ++ [⟨wrapHandler primary secondary, req, conn.rw⟩] } req).bind
        (fun conn1 => ServeHTTP b secondary conn1 req) ∧
    serve b (wrapHandler primary secondary) conn.rw req =
      (serve b primary conn.rw req).bind (fun rw1 => serve b secondary rw1 req) ∧
    (∀ (p s : Nat) (rw1 rw2 : ResponseWriter),
      primary = Handler.foreign p → secondary = Handler.foreign s →
      b.foreign p conn.rw req = some rw1 → b.foreign s rw1 req = some rw2 →
      ServeHTTP b (wrapHandler primary secondary) conn req =
        some { rw := rw2
               calls := conn.calls ++
                 [⟨wrapHandler primary secondary, req, conn.rw⟩,
                  ⟨primary, req, conn.rw⟩,
                  ⟨secondary, req, rw1⟩] }) := by
  have h1 : ServeHTTP b (wrapHandler primary secondary) conn req =
      (ServeHTTP b primary
        { conn with
          calls := conn.calls ++ [⟨wrapHandler primary secondary, req, conn.rw⟩] } req).bind
        (fun conn1 => ServeHTTP b secondary conn1 req) := by
    simp only [wrapHandler, ServeHTTP]
    cases ServeHTTP b primary
      { rw := conn.rw
        calls := conn.calls ++ [⟨Handler.wrapFunc primary secondary, req, conn.rw⟩] } req <;> rfl
  refine ⟨h1, ?_, ?_⟩
  · have h2 := ServeHTTP_rw b primary conn.rw
      ([] ++ [⟨wrapHandler primary secondary, req, conn.rw⟩]) req
    unfold serve at h2 ⊢
    simp only [wrapHandler, ServeHTTP] at h2 ⊢
    rcases hA : ServeHTTP b primary
        { rw := conn.rw
          calls := [] ++ [⟨Handler.wrapFunc primary secondary, req, conn.rw⟩] } req
      with _ | ⟨rwA, csA⟩ <;> rw [hA] at h2 <;> simp at h2 <;> rw [← h2] <;> simp
    have h3 := ServeHTTP_rw b secondary rwA csA req
    unfold serve at h3
    exact h3
  · rintro p s rw1 rw2 rfl rfl hp hs
    simp [wrapHandler, ServeHTTP, hp, hs]

/-- C6 at work: handler 1, then handler 2, on request 7. -/
theorem wrapHandler_serves_both_witness :
    ServeHTTP appendId (wrapHandler (Handler.foreign 1) (Handler.foreign 2))
        { rw := ⟨[]⟩, calls := [] } ⟨7⟩ =
      some { rw := ⟨[1, 2]⟩
             calls := [] ++
               [⟨wrapHandler (Handler.foreign 1) (Handler.foreign 2), ⟨7⟩, ⟨[]⟩⟩,
                ⟨Handler.foreign 1, ⟨7⟩, ⟨[]⟩⟩,
                ⟨Handler.foreign 2, ⟨7⟩, ⟨[1]⟩⟩] } :=
  (wrapHandler_serves_both appendId (Handler.foreign 1) (Handler.foreign 2)
    { rw := ⟨[]⟩, calls := [] } ⟨7⟩).2.2 1 2 ⟨[1]⟩ ⟨[1, 2]⟩ rfl rfl rfl rfl


/-! ## The shutdown watchers -/

theorem split_snoc {α : Type} (l before after : List α) (e x : α)
    (h : l ++ [e] = before ++ x :: after) :
    (after = [] ∧ x = e ∧ before = l) ∨
      ∃ after1, after = after1 ++ [e] ∧ l = before ++ x :: after1 := by
  rcases List.eq_nil_or_concat after with rfl | ⟨L, b, rfl⟩
  · left
    have h2 := List.append_inj' h (by simp)
    simp at h2
    exact ⟨rfl, h2.2.symm, h2.1.symm⟩
  · right
    have h1 : l ++ [e] = (before ++ x :: L) ++ [b] := by simpa using h
    have h2 := List.append_inj' h1 (by simp)
    simp at h2
    exact ⟨L, by rw [h2.2]; simp, by simpa using h2.1⟩

theorem instr_eq_some (s : Sys) (i : Nat) (ins : Instr) (h : s.instr i = some ins) :
    ∃ g pc, s.gs[i]? = some g ∧ s.pcs[i]? = some pc ∧ g.body[pc]? = some ins := by
  unfold Sys.instr at h
  split at h
  · next g pc hg hpc => exact ⟨g, pc, hg, hpc, h⟩
  · simp at h

/-- The only `Shutdown` statements are the second statements of the two watchers. -/
theorem body_shutdown (g : Goroutine) (pc : Nat) (srv : HTTPServer) (c : Context)
    (h : g.body[pc]? = some (Instr.shutdown srv c)) :
    pc = 1 ∧ ∃ ctx1, g.body = [Instr.recvDone ctx1, Instr.shutdown srv c] := by
  cases g <;> rcases pc with _ | _ | pc <;> simp [Goroutine.body] at h ⊢
  · exact ⟨h.1, h.2⟩
  · exact ⟨h.1, h.2⟩

/-- A body of the shape receive-then-`Shutdown` is the body of a watcher, and its `Shutdown` is given `context.Background()`. -/
theorem body_watcher (g : Goroutine) (ctx1 : Context) (srv : HTTPServer) (c : Context)
    (h : g.body = [Instr.recvDone ctx1, Instr.shutdown srv c]) :
    c = Context.background ∧
      (g = Goroutine.httpsShutdown ctx1 srv ∨ g = Goroutine.httpShutdown ctx1 srv) := by
  cases g <;> simp [Goroutine.body] at h ⊢
  · obtain ⟨rfl, rfl, rfl⟩ := h
    exact ⟨rfl, rfl, rfl⟩
  · obtain ⟨rfl, rfl, rfl⟩ := h
    exact ⟨rfl, rfl, rfl⟩

/-- The invariant survives one more event that is justified by the events before it. -/
theorem Inv_append_one (s s1 : Sys) (hinv : s.Inv) (hgs : s1.gs = s.gs) (e : Event)
    (hev : s1.events = s.events ++ [e])
    (hpast : ∀ (i : Nat) (g : Goroutine) (pc : Nat) (c : Context),
      s1.gs[i]? = some g → s1.pcs[i]? = some pc → 1 ≤ pc →
      g.body[0]? = some (Instr.recvDone c) → Event.received i c ∈ s1.events)
    (hrecv : ∀ i c, e = Event.received i c →
      ∃ id, c = Context.caller id ∧ Event.cancelled id ∈ s.events)
    (hshut : ∀ i srv c, e = Event.shutdown i srv c →
      ∃ g ctx1, s.gs[i]? = some g ∧ g.body = [Instr.recvDone ctx1, Instr.shutdown srv c] ∧
        Event.received i ctx1 ∈ s.events) :
    s1.Inv := by
  refine ⟨hpast, ?_, ?_⟩
  · intro before i c after h
    rw [hev] at h
    rcases split_snoc _ _ _ _ _ h with ⟨-, hx, hb⟩ | ⟨after1, -, hl⟩
    · rw [hb]
      exact hrecv i c hx.symm
    · exact hinv.recv_after_cancel before i c after1 hl
  · intro before i srv c after h
    rw [hev] at h
    rcases split_snoc _ _ _ _ _ h with ⟨-, hx, hb⟩ | ⟨after1, -, hl⟩
    · rw [hb, hgs]
      exact hshut i srv c hx.symm
    · rw [hgs]
      exact hinv.shutdown_after_recv before i srv c after1 hl

/-- After goroutine `i` has executed the statement `ins`, every goroutine past its receive has logged it, provided `i` logs its own. -/
theorem past_recv_advance (s : Sys) (hinv : s.Inv) (i : Nat) (evs : List Event)
    (g : Goroutine) (pc : Nat) (ins : Instr)
    (hg : s.gs[i]? = some g) (hpc : s.pcs[i]? = some pc) (hins : g.body[pc]? = some ins)
    (hnew : ∀ c, ins = Instr.recvDone c → Event.received i c ∈ s.events ++ evs) :
    ∀ (j : Nat) (g1 : Goroutine) (pc1 : Nat) (c : Context),
      (s.advance i evs).gs[j]? = some g1 → (s.advance i evs).pcs[j]? = some pc1 → 1 ≤ pc1 →
      g1.body[0]? = some (Instr.recvDone c) →
      Event.received j c ∈ (s.advance i evs).events := by
  intro j g1 pc1 c hg1 hpc1 h1 hb
  simp only [Sys.advance] at hg1 hpc1 ⊢
  by_cases hji : i = j
  · subst hji
    rw [hg] at hg1
    simp only [Option.some.injEq] at hg1
    subst hg1
    rcases Nat.eq_zero_or_pos pc with h0 | hpos
    · subst h0
      rw [hb] at hins
      simp only [Option.some.injEq] at hins
      exact hnew c hins.symm
    · exact List.mem_append_left _ (hinv.past_recv i g pc c hg hpc hpos hb)
  · rw [List.getElem?_set_ne hji] at hpc1
    exact List.mem_append_left _ (hinv.past_recv j g1 pc1 c hg1 hpc1 h1 hb)

theorem advance_inv (s : Sys) (hinv : s.Inv) (i : Nat) (e : Event)
    (g : Goroutine) (pc : Nat) (ins : Instr)
    (hg : s.gs[i]? = some g) (hpc : s.pcs[i]? = some pc) (hins : g.body[pc]? = some ins)
    (hnew : ∀ c, ins = Instr.recvDone c → e = Event.received i c)
    (hrecv : ∀ j c, e = Event.received j c →
      ∃ id, c = Context.caller id ∧ Event.cancelled id ∈ s.events)
    (hshut : ∀ j srv c, e = Event.shutdown j srv c →
      ∃ g ctx1, s.gs[j]? = some g ∧ g.body = [Instr.recvDone ctx1, Instr.shutdown srv c] ∧
        Event.received j ctx1 ∈ s.events) :
    (s.advance i [e]).Inv := by
  refine Inv_append_one s (s.advance i [e]) hinv rfl e rfl ?_ hrecv hshut
  refine past_recv_advance s hinv i [e] g pc ins hg hpc hins ?_
  intro c hc
  rw [hnew c hc]
  simp

theorem serveReturn_inv (s : Sys) (hinv : s.Inv) (i : Nat) (srv : HTTPServer)
    (err : Option Error) (g : Goroutine) (pc : Nat) (ins : Instr)
    (hg : s.gs[i]? = some g) (hpc : s.pcs[i]? = some pc) (hins : g.body[pc]? = some ins)
    (hnot : ∀ c, ins ≠ Instr.recvDone c) :
    (s.serveReturn i srv err).Inv ∧ (s.serveReturn i srv err).gs = s.gs := by
  unfold Sys.serveReturn
  split
  · refine ⟨?_, rfl⟩
    have h1 : ({ s with events := s.events ++ [Event.served i srv err] } : Sys).Inv := by
      refine Inv_append_one s _ hinv rfl (Event.served i srv err) rfl ?_ ?_ ?_
      · intro j g1 pc1 c hg1 hpc1 h1 hb
        exact List.mem_append_left _ (hinv.past_recv j g1 pc1 c hg1 hpc1 h1 hb)
      · intro j c h
        simp at h
      · intro j srv1 c h
        simp at h
    refine Inv_append_one _ _ h1 rfl (Event.fatal i) (by simp) ?_ ?_ ?_
    · intro j g1 pc1 c hg1 hpc1 h2 hb
      have := hinv.past_recv j g1 pc1 c hg1 hpc1 h2 hb
      simp [this]
    · intro j c h
      simp at h
    · intro j srv1 c h
      simp at h
  · refine ⟨?_, rfl⟩
    refine advance_inv s hinv i _ g pc ins hg hpc hins ?_ ?_ ?_
    · intro c hc
      exact absurd hc (hnot c)
    · intro j c h
      simp at h
    · intro j srv1 c h
      simp at h

/-- One step keeps the invariant and the goroutines. -/
theorem step_inv (s s1 : Sys) (a : Action) (hinv : s.Inv) (h : step s a = some s1) :
    s1.Inv ∧ s1.gs = s.gs := by
  unfold step at h
  split at h
  · simp at h
  · cases a with
    | cancel id =>
      simp only [Option.some.injEq] at h
      subst h
      refine ⟨?_, rfl⟩
      refine Inv_append_one s _ hinv rfl (Event.cancelled id) rfl ?_ ?_ ?_
      · intro j g1 pc1 c hg1 hpc1 h1 hb
        exact List.mem_append_left _ (hinv.past_recv j g1 pc1 c hg1 hpc1 h1 hb)
      · intro j c h
        simp at h
      · intro j srv1 c h
        simp at h
    | run i =>
      simp only at h
      rcases hins : s.instr i with _ | ins
      · rw [hins] at h
        simp at h
      · obtain ⟨g, pc, hg, hpc, hb⟩ := instr_eq_some s i ins hins
        rw [hins] at h
        cases ins with
        | infof msg =>
          simp only [Option.some.injEq] at h
          subst h
          refine ⟨?_, rfl⟩
          refine advance_inv s hinv i _ g pc _ hg hpc hb ?_ ?_ ?_
          · intro c hc
            simp at hc
          · intro j c h
            simp at h
          · intro j srv1 c h
            simp at h
        | recvDone ctx =>
          simp only at h
          split at h
          · next hdone =>
            simp only [Option.some.injEq] at h
            subst h
            refine ⟨?_, rfl⟩
            refine advance_inv s hinv i _ g pc _ hg hpc hb ?_ ?_ ?_
            · intro c hc
              simp only [Instr.recvDone.injEq] at hc
              rw [hc]
            · intro j c h
              simp only [Event.received.injEq] at h
              obtain ⟨-, rfl⟩ := h
              cases ctx with
              | background => simp [Sys.done] at hdone
              | caller id =>
                simp only [Sys.done, decide_eq_true_eq] at hdone
                exact ⟨id, rfl, hdone⟩
            · intro j srv1 c h
              simp at h
          · simp at h
        | shutdown srv c =>
          simp only [Option.some.injEq] at h
          subst h
          refine ⟨?_, rfl⟩
          obtain ⟨hpc1, ctx1, hbody⟩ := body_shutdown g pc srv c hb
          refine advance_inv s hinv i _ g pc _ hg hpc hb ?_ ?_ ?_
          · intro c1 hc
            simp at hc
          · intro j c1 h
            simp at h
          · intro j srv1 c1 h
            simp only [Event.shutdown.injEq] at h
            obtain ⟨rfl, rfl, rfl⟩ := h
            refine ⟨g, ctx1, hg, hbody, ?_⟩
            refine hinv.past_recv i g pc ctx1 hg hpc (by omega) ?_
            rw [hbody]
            rfl
        | serve srv l => simp at h
        | listenAndServe srv => simp at h
    | serveReturns i err =>
      simp only at h
      rcases hins : s.instr i with _ | ins
      · rw [hins] at h
        simp at h
      · obtain ⟨g, pc, hg, hpc, hb⟩ := instr_eq_some s i ins hins
        rw [hins] at h
        cases ins with
        | infof msg => simp at h
        | recvDone ctx => simp at h
        | shutdown srv c => simp at h
        | serve srv l =>
          simp only [Option.some.injEq] at h
          subst h
          exact serveReturn_inv s hinv i srv err g pc _ hg hpc hb (by simp)
        | listenAndServe srv =>
          simp only [Option.some.injEq] at h
          subst h
          exact serveReturn_inv s hinv i srv err g pc _ hg hpc hb (by simp)

/-- Every run keeps the invariant and the goroutines. -/
theorem exec_inv (acts : List Action) (s s1 : Sys) (hinv : s.Inv)
    (h : exec s acts = some s1) : s1.Inv ∧ s1.gs = s.gs := by
  induction acts generalizing s with
  | nil =>
    simp only [exec, Option.some.injEq] at h
    subst h
    exact ⟨hinv, rfl⟩
  | cons a rest ih =>
    simp only [exec] at h
    rcases hs : step s a with _ | s2
    · rw [hs] at h
      simp at h
    · rw [hs] at h
      simp only [Option.some_bind] at h
      obtain ⟨h2, hg2⟩ := step_inv s s2 a hinv hs
      obtain ⟨h3, hg3⟩ := ih s2 h2 h
      exact ⟨h3, by rw [hg3, hg2]⟩

/-- The invariant holds before any goroutine has run. -/
theorem start_inv (gs : List Goroutine) (fired : List Nat) : (Sys.start gs fired).Inv := by
  refine ⟨?_, ?_, ?_⟩
  · intro i g pc c _ hpc h1 _
    simp only [Sys.start, List.getElem?_map] at hpc
    cases hgi : gs[i]? with
    | none => rw [hgi] at hpc; simp at hpc
    | some g1 =>
      rw [hgi] at hpc
      simp at hpc
      omega
  · intro before i c after h
    have hm : Event.received i c ∈ (Sys.start gs fired).events := by
      rw [h]
      simp
    simp [Sys.start] at hm
  · intro before i srv c after h
    have hm : Event.shutdown i srv c ∈ (Sys.start gs fired).events := by
      rw [h]
      simp
    simp [Sys.start] at hm

/-- Every watcher a call schedules waits on the context the call was given. -/
theorem scheduled_watcher_ctx (env : Env) (ctx : Context) (httpsPort httpPort : Int)
    (handler : Handler) (opts : Option ListenOpts) (g : Goroutine) (c : Context)
    (srv : HTTPServer)
    (hmem : g ∈ scheduled (ListenAndServe env ctx httpsPort httpPort handler opts))
    (hg : g = Goroutine.httpsShutdown c srv ∨ g = Goroutine.httpShutdown c srv) :
    c = ctx := by
  rcases scheduled_cases env ctx httpsPort httpPort handler opts with
    ⟨-, -, hs⟩ | ⟨-, -, hs⟩ | ⟨-, -, l, s, ca, k, dl, dh, -, -, hs⟩
  · rw [hs] at hmem
    by_cases hq : httpPort > 0 <;> simp [hq] at hmem
    rcases hg with rfl | rfl <;> simp at hmem
    exact hmem.1
  · rw [hs] at hmem
    simp at hmem
  · rw [hs] at hmem
    by_cases hq : httpPort > 0 <;> simp [hq] at hmem <;>
      rcases hg with rfl | rfl <;> simp at hmem
    · exact hmem.1
    · exact hmem.1
    · exact hmem.1

/-- C9: in every run of the goroutines scheduled by a call of `ListenAndServe`, under every interleaving and whatever the serve calls return, every call of `Shutdown` on a server is made by the shutdown watcher that holds that server, after that watcher has received from `ctx.Done()`, which happens after `ctx` has been cancelled; and its argument is `context.Background()`, which is not `ctx` and is never cancelled. -/
theorem shutdown_only_after_cancel (env : Env) (ctx : Context) (httpsPort httpPort : Int)
    (handler : Handler) (opts : Option ListenOpts) (fired : List Nat)
    (acts : List Action) (s : Sys)
    (hrun : exec (Sys.start
      (scheduled (ListenAndServe env ctx httpsPort httpPort handler opts)) fired) acts =
        some s)
    (before after : List Event) (i : Nat) (srv : HTTPServer) (c : Context)
    (hev : s.events = before ++ Event.shutdown i srv c :: after) :
    c = Context.background ∧ c ≠ ctx ∧ s.done c = false ∧
    (∃ id, ctx = Context.caller id ∧ Event.cancelled id ∈ before) ∧
    Event.received i ctx ∈ before ∧
    ((scheduled (ListenAndServe env ctx httpsPort httpPort handler opts))[i]? =
        some (Goroutine.httpsShutdown ctx srv) ∨
      (scheduled (ListenAndServe env ctx httpsPort httpPort handler opts))[i]? =
        some (Goroutine.httpShutdown ctx srv)) := by
  obtain ⟨hinv, hgs⟩ := exec_inv acts _ s (start_inv _ fired) hrun
  obtain ⟨g, ctx1, hg, hbody, hrecv⟩ := hinv.shutdown_after_recv before i srv c after hev
  obtain ⟨hc, hw⟩ := body_watcher g ctx1 srv c hbody
  rw [hgs] at hg
  simp only [Sys.start] at hg
  have hmem : g ∈ scheduled (ListenAndServe env ctx httpsPort httpPort handler opts) :=
    List.getElem?_mem hg
  have hctx : ctx1 = ctx :=
    scheduled_watcher_ctx env ctx httpsPort httpPort handler opts g ctx1 srv hmem hw
  subst hctx
  obtain ⟨b1, b2, hsplit⟩ := List.append_of_mem hrecv
  have hev2 : s.events = b1 ++ Event.received i ctx1 :: (b2 ++ Event.shutdown i srv c :: after) := by
    rw [hev, hsplit]
    simp
  obtain ⟨id, hid, hcan⟩ := hinv.recv_after_cancel b1 i ctx1 _ hev2
  subst hc
  refine ⟨rfl, ?_, rfl, ⟨id, hid, ?_⟩, hrecv, ?_⟩
  · rw [hid]
    simp
  · rw [hsplit]
    exact List.mem_append_left _ hcan
  · rcases hw with rfl | rfl
    · exact Or.inl hg
    · exact Or.inr hg

/-- C9 at work: the HTTPS watcher of a call with `ctx = Context.caller 1` shuts the server down after the cancellation. -/
theorem shutdown_only_after_cancel_witness :
    Context.background = Context.background ∧ Context.background ≠ Context.caller 1 ∧
      (∃ id, Context.caller 1 = Context.caller id ∧
        Event.cancelled id ∈
          [Event.cancelled 1, Event.received 1 (Context.caller 1)]) ∧
      Event.received 1 (Context.caller 1) ∈
        [Event.cancelled 1, Event.received 1 (Context.caller 1)] :=
  have h := shutdown_only_after_cancel envOK (Context.caller 1) 443 0 (Handler.foreign 1) none []
    [Action.cancel 1, Action.run 1, Action.run 1]
    { gs := scheduled (ListenAndServe envOK (Context.caller 1) 443 0 (Handler.foreign 1) none)
      pcs := [0, 2]
      events := [Event.cancelled 1, Event.received 1 (Context.caller 1),
        Event.shutdown 1
          { Handler := wrapHandler (Handler.foreign 100) (Handler.foreign 1) }
          Context.background]
      exited := false }
    (by decide)
    [Event.cancelled 1, Event.received 1 (Context.caller 1)] [] 1
    { Handler := wrapHandler (Handler.foreign 100) (Handler.foreign 1) }
    Context.background rfl
  ⟨h.1, h.2.1, h.2.2.2.1, h.2.2.2.2.1⟩

end Server
